import Mathlib

/-!
# enfasten: the `buildFastSite` pipeline

A shallow embedding of `enfasten.go`: the configuration record, `readConfig`,
the path helpers, and the sequential, error-short-circuiting pipeline
`buildFastSite`.  The stages that live in other files of the repository
(`discoverImages`, `readManifest`, `buildNewManifest`, `saveManifest`,
`transferAndTransformAll`, `deleteNonWhitelist`) and the operating-system calls
are fields of a `Stages` record acting on an abstract world state `W`, and
`buildFastSite` is a function of that record alone.

What `buildFastSite` invokes, with what, and in which order, is observed by
running it on recording stages: `traced S` wraps every stage of `S` so that
each application appends to a list, kept in the world, the world it was
applied to, its arguments and the result `S` gave.  `buildFastSite` can reach
the world only through the stages it is given, so the recorded list `trace`
holds every application it makes, in order, and nothing else.

Go strings are byte strings.  The only bytes the path functions inspect are
`/` and `.`, which never occur inside a multi-byte UTF-8 sequence, so working
on the characters of a `String` gives the same result as working on its bytes.
-/

namespace Enfasten

/-! ## `path.Clean` and `path.Join` (Go standard library, package `path`) -/

/-- The inner loop of the `..` case of `path.Clean`:
`for out.w > dotdot && out.index(out.w) != '/' { out.w-- }`. -/
def backtrack (buf : List Char) (dotdot : Nat) : Nat → Nat
  | 0 => 0
  | w + 1 =>
    if w + 1 > dotdot && buf.getD (w + 1) ' ' != '/' then backtrack buf dotdot w else w + 1

/-- The main loop `for r < n { switch ... }` of `path.Clean`.  The lazy buffer
`out` is the list of the `out.w` bytes written so far.  Every iteration
advances `r`, so `n - r` units of fuel are enough. -/
def cleanLoop (path : List Char) (rooted : Bool) :
    Nat → Nat → Nat → List Char → List Char
  | 0, _, _, out => out
  | fuel + 1, r, dotdot, out =>
    if r < path.length then
      if path.getD r ' ' == '/' then
        -- empty path element
        cleanLoop path rooted fuel (r + 1) dotdot out
      else if path.getD r ' ' == '.' &&
          (r + 1 == path.length || path.getD (r + 1) ' ' == '/') then
        -- . element
        cleanLoop path rooted fuel (r + 1) dotdot out
      else if path.getD r ' ' == '.' && path.getD (r + 1) ' ' == '.' &&
          (r + 2 == path.length || path.getD (r + 2) ' ' == '/') then
        -- .. element: remove to last /
        if out.length > dotdot then
          -- can backtrack
          cleanLoop path rooted fuel (r + 2) dotdot
            (out.take (backtrack out dotdot (out.length - 1)))
        else if !rooted then
          -- cannot backtrack, but not rooted, so append .. element
          let out1 := if out.length > 0 then out ++ ['/'] else out
          let out2 := out1 ++ ['.', '.']
          cleanLoop path rooted fuel (r + 2) out2.length out2
        else
          cleanLoop path rooted fuel (r + 2) dotdot out
      else
        -- real path element: add slash if needed, then copy the element
        let out1 :=
          if (rooted && out.length != 1) || (!rooted && out.length != 0) then out ++ ['/']
          else out
        let el := (path.drop r).takeWhile (fun c => c != '/')
        cleanLoop path rooted fuel (r + el.length) dotdot (out1 ++ el)
    else out

/-- Go `path.Clean` on the bytes of a path. -/
def cleanChars (path : List Char) : List Char :=
  if path = [] then ['.']
  else
    let rooted := path.getD 0 ' ' == '/'
    let out :=
      if rooted then cleanLoop path rooted path.length 1 1 ['/']
      else cleanLoop path rooted path.length 0 0 []
    -- Turn empty string into "."
    if out.length == 0 then ['.'] else out

/-- Go `path.Clean`. -/
def pathClean (p : String) : String := ⟨cleanChars p.data⟩

/-- The buffer that `path.Join` builds before cleaning: the non-empty prefix is
skipped, later elements are appended after a `/`. -/
def joinChars : List Char → List String → List Char
  | buf, [] => buf
  | buf, e :: es =>
    if buf.length > 0 || e != "" then
      joinChars ((if buf.length > 0 then buf ++ ['/'] else buf) ++ e.data) es
    else joinChars buf es

/-- Go `path.Join`. -/
def pathJoin (elem : List String) : String :=
  if (elem.map String.length).sum = 0 then ""
  else ⟨cleanChars (joinChars [] elem)⟩

/-- Go `path.IsAbs`: `len(path) > 0 && path[0] == '/'`. -/
def pathIsAbs (p : String) : Bool := p.data.head? == some '/'

/-! ## Data model -/

/-- Go `error` values; `nil` is `none` in an `Option GoError`. -/
abbrev GoError := String

/-- The `config` struct.  Slices are lists (a nil slice and an empty slice are
both `[]`); the `float64` thresholds are the decimal constants of the source. -/
structure config where
  InputFolder : String
  OutputFolder : String
  ImageFolder : String
  ManifestFile : String
  SizesAttr : String
  OptimCommand : List String
  ScaleThreshold : ℚ
  JpgScaleThreshold : ℚ
  JpgQuality : Int
  DoCopy : Bool
  Widths : List Int
  Blacklist : List String
  basePath : String
  doCulling : Bool
  deriving DecidableEq

/-- The method `func (conf *config) ImageFolderPath() string`. -/
def config.ImageFolderPath (conf : config) : String :=
  pathJoin [conf.basePath, conf.OutputFolder, conf.ImageFolder]

/-- The method `func (conf *config) InputFolderPath() string`. -/
def config.InputFolderPath (conf : config) : String :=
  pathJoin [conf.basePath, conf.InputFolder]

/-- Modelled from the spec: the type of a generated-file record is declared
outside `enfasten.go`; the spec gives it a file name, a width and a format, and
`buildFastSite` reads its `FileName`. -/
structure GeneratedFile where
  FileName : String
  Width : Nat
  Format : String
  deriving DecidableEq

/-- Modelled from the spec: the type of a manifest entry is declared outside
`enfasten.go`; the spec gives it a slug, a source fingerprint and an ordered
set of generated files, and `buildFastSite` ranges over its `Files`. -/
structure ManifestEntry where
  Slug : String
  Fingerprint : String
  Files : List GeneratedFile
  deriving DecidableEq

/-- Modelled from the spec: the manifest type is declared outside
`enfasten.go`; it is the collection of entries that `range newManifest` visits,
each once, listed here in the order of the visit. -/
abbrev manifest := List ManifestEntry

/-- The source-path to slug mapping returned by `buildNewManifest`. -/
abbrev PathToSlug := List (String × String)

/-- The `transformConfig` literal built by `buildFastSite`. -/
structure transformConfig where
  config : config
  manifest : manifest
  pathToSlug : PathToSlug
  deriving DecidableEq

/-- What a YAML document sets: one optional value per exported field of
`config`.  The unexported fields `basePath` and `doCulling` cannot be set by
`yaml.Unmarshal`. -/
structure YamlDoc where
  InputFolder : Option String
  OutputFolder : Option String
  ImageFolder : Option String
  ManifestFile : Option String
  SizesAttr : Option String
  OptimCommand : Option (List String)
  ScaleThreshold : Option ℚ
  JpgScaleThreshold : Option ℚ
  JpgQuality : Option Int
  DoCopy : Option Bool
  Widths : Option (List Int)
  Blacklist : Option (List String)
  deriving DecidableEq

/-- The effect of `yaml.Unmarshal(bytes, &conf)` on `conf`: the fields the
document sets are overwritten, the others are left as they are. -/
def YamlDoc.applyTo (d : YamlDoc) (conf : config) : config :=
  { InputFolder := d.InputFolder.getD conf.InputFolder
    OutputFolder := d.OutputFolder.getD conf.OutputFolder
    ImageFolder := d.ImageFolder.getD conf.ImageFolder
    ManifestFile := d.ManifestFile.getD conf.ManifestFile
    SizesAttr := d.SizesAttr.getD conf.SizesAttr
    OptimCommand := d.OptimCommand.getD conf.OptimCommand
    ScaleThreshold := d.ScaleThreshold.getD conf.ScaleThreshold
    JpgScaleThreshold := d.JpgScaleThreshold.getD conf.JpgScaleThreshold
    JpgQuality := d.JpgQuality.getD conf.JpgQuality
    DoCopy := d.DoCopy.getD conf.DoCopy
    Widths := d.Widths.getD conf.Widths
    Blacklist := d.Blacklist.getD conf.Blacklist
    basePath := conf.basePath
    doCulling := conf.doCulling }

/-- The document that sets no field. -/
def YamlDoc.empty : YamlDoc :=
  ⟨none, none, none, none, none, none, none, none, none, none, none, none⟩

/-- Everything `buildFastSite` calls that is not defined in `enfasten.go`,
acting on a world state `W` (the file system).  A call that returns a value
and an error is an `Except`; a call that returns only an error is an
`Option GoError`. -/
structure Stages (W : Type) where
  /-- The function `readFileBytes`: `os.OpenFile` then `ioutil.ReadAll`. -/
  readFileBytes : String → W → Except GoError (List UInt8) × W
  /-- The parsing half of `yaml.Unmarshal`: the fields the bytes set, and the
  error if any. -/
  yamlParse : List UInt8 → YamlDoc × Option GoError
  discoverImages : config → String → W → Except GoError (List String) × W
  readManifest : String → W → Except GoError manifest × W
  mkdirAll : String → W → Option GoError × W
  buildNewManifest :
    config → List String → manifest → W → Except GoError (manifest × PathToSlug) × W
  saveManifest : String → manifest → W → Option GoError × W
  transferAndTransformAll : transformConfig → W → Except GoError (List String) × W
  deleteNonWhitelist : config → List String → W → Option GoError × W

/-- One application of a stage: the world it was applied to, its arguments,
and the result it gave. -/
inductive Call (W : Type) where
  | readFileBytes (w : W) (path : String) (res : Except GoError (List UInt8))
  | discoverImages (w : W) (conf : config) (root : String) (res : Except GoError (List String))
  | readManifest (w : W) (path : String) (res : Except GoError manifest)
  | mkdirAll (w : W) (path : String) (err : Option GoError)
  | buildNewManifest (w : W) (conf : config) (found : List String) (old : manifest)
      (res : Except GoError (manifest × PathToSlug))
  | saveManifest (w : W) (path : String) (m : manifest) (err : Option GoError)
  | transferAndTransformAll (w : W) (tc : transformConfig) (res : Except GoError (List String))
  | deleteNonWhitelist (w : W) (conf : config) (whitelist : List String) (err : Option GoError)

/-- The error of an `Except` result, `none` when it is a value. -/
def errOf {α : Type} : Except GoError α → Option GoError
  | .error e => some e
  | .ok _ => none

/-- The error a call returned, `none` when it succeeded. -/
def Call.err {W : Type} : Call W → Option GoError
  | .readFileBytes _ _ r => errOf r
  | .discoverImages _ _ _ r => errOf r
  | .readManifest _ _ r => errOf r
  | .mkdirAll _ _ e => e
  | .buildNewManifest _ _ _ _ r => errOf r
  | .saveManifest _ _ _ e => e
  | .transferAndTransformAll _ _ r => errOf r
  | .deleteNonWhitelist _ _ _ e => e

/-- The calls that change the file system: `os.MkdirAll`, `saveManifest`,
`transferAndTransformAll`, `deleteNonWhitelist`. -/
def Call.mutating {W : Type} : Call W → Bool
  | .mkdirAll .. => true
  | .saveManifest .. => true
  | .transferAndTransformAll .. => true
  | .deleteNonWhitelist .. => true
  | _ => false

/-- The name of the function a call invokes. -/
def Call.name {W : Type} : Call W → String
  | .readFileBytes .. => "readFileBytes"
  | .discoverImages .. => "discoverImages"
  | .readManifest .. => "readManifest"
  | .mkdirAll .. => "os.MkdirAll"
  | .buildNewManifest .. => "buildNewManifest"
  | .saveManifest .. => "saveManifest"
  | .transferAndTransformAll .. => "transferAndTransformAll"
  | .deleteNonWhitelist .. => "deleteNonWhitelist"

/-- The world a call was applied to. -/
def Call.pre {W : Type} : Call W → W
  | .readFileBytes w .. => w
  | .discoverImages w .. => w
  | .readManifest w .. => w
  | .mkdirAll w .. => w
  | .buildNewManifest w .. => w
  | .saveManifest w .. => w
  | .transferAndTransformAll w .. => w
  | .deleteNonWhitelist w .. => w

/-- The world the stages `S` leave when applied as the call records. -/
def Call.post {W : Type} (S : Stages W) : Call W → W
  | .readFileBytes w p _ => (S.readFileBytes p w).2
  | .discoverImages w conf root _ => (S.discoverImages conf root w).2
  | .readManifest w p _ => (S.readManifest p w).2
  | .mkdirAll w p _ => (S.mkdirAll p w).2
  | .buildNewManifest w conf found old _ => (S.buildNewManifest conf found old w).2
  | .saveManifest w p m _ => (S.saveManifest p m w).2
  | .transferAndTransformAll w tc _ => (S.transferAndTransformAll tc w).2
  | .deleteNonWhitelist w conf wl _ => (S.deleteNonWhitelist conf wl w).2

/-- A call is real for the stages `S` when the result it records is the one
`S` gives on the recorded world and arguments. -/
def Call.real {W : Type} (S : Stages W) : Call W → Prop
  | .readFileBytes w p r => (S.readFileBytes p w).1 = r
  | .discoverImages w conf root r => (S.discoverImages conf root w).1 = r
  | .readManifest w p r => (S.readManifest p w).1 = r
  | .mkdirAll w p e => (S.mkdirAll p w).1 = e
  | .buildNewManifest w conf found old r => (S.buildNewManifest conf found old w).1 = r
  | .saveManifest w p m e => (S.saveManifest p m w).1 = e
  | .transferAndTransformAll w tc r => (S.transferAndTransformAll tc w).1 = r
  | .deleteNonWhitelist w conf wl e => (S.deleteNonWhitelist conf wl w).1 = e

/-! ## `readConfig` and `buildFastSite` -/

/-- The struct literal at the head of `readConfig`; the fields it does not
name (`Blacklist`, `basePath`, `doCulling`) have their zero values. -/
def defaultConfig : config :=
  { InputFolder := "_site"
    OutputFolder := "_fastsite"
    ImageFolder := "assets/images"
    ManifestFile := "enfasten_manifest.yml"
    SizesAttr := ""
    OptimCommand := []
    DoCopy := true
    ScaleThreshold := 0.9
    JpgScaleThreshold := 0.7
    JpgQuality := 90
    Widths := []
    Blacklist := []
    basePath := ""
    doCulling := false }

/-- The function `func readConfig(basePath string) (conf config, err error)`. -/
def readConfig {W : Type} (S : Stages W) (basePath : String) (w : W) :
    (config × Option GoError) × W :=
  let conf := defaultConfig
  match S.readFileBytes (pathJoin [basePath, "enfasten.yml"]) w with
  | (.error e, w1) => ((conf, some e), w1)
  | (.ok bytes, w1) =>
    let (doc, err) := S.yamlParse bytes
    ((doc.applyTo conf, err), w1)

/-- The loop `for _, bImg := range newManifest { for _, bImgFile := range
bImg.Files { whitelist = append(whitelist, path.Join(imageFolder,
bImgFile.FileName)) } }`. -/
def whitelistAll (imageFolder : String) (whitelist : List String) (newManifest : manifest) :
    List String :=
  newManifest.foldl
    (fun wl bImg =>
      bImg.Files.foldl (fun wl bImgFile => wl ++ [pathJoin [imageFolder, bImgFile.FileName]]) wl)
    whitelist

/-- The result of a run: the returned error and the final world. -/
structure Run (W : Type) where
  err : Option GoError
  world : W

/-- The function `func buildFastSite(basePath string, doCulling bool) (err error)`. -/
def buildFastSite {W : Type} (S : Stages W) (basePath : String) (doCulling : Bool) (w0 : W) :
    Run W :=
  match readConfig S basePath w0 with
  | ((_, some e), w1) => ⟨some e, w1⟩
  | ((conf0, none), w1) =>
  let conf := { conf0 with basePath := basePath, doCulling := doCulling }
  match S.discoverImages conf (pathJoin [conf.basePath, conf.InputFolder]) w1 with
  | (.error e, w2) => ⟨some e, w2⟩
  | (.ok foundImages, w2) =>
  let manifestPath :=
    if conf.ManifestFile != "" then pathJoin [conf.basePath, conf.ManifestFile]
    else conf.ManifestFile
  match S.readManifest manifestPath w2 with
  | (.error e, w3) => ⟨some e, w3⟩
  | (.ok oldManifest, w3) =>
  match S.mkdirAll conf.ImageFolderPath w3 with
  | (some e, w4) => ⟨some e, w4⟩
  | (none, w4) =>
  match S.buildNewManifest conf foundImages oldManifest w4 with
  | (.error e, w5) => ⟨some e, w5⟩
  | (.ok (newManifest, pathToSlug), w5) =>
  match S.saveManifest manifestPath newManifest w5 with
  | (some e, w6) => ⟨some e, w6⟩
  | (none, w6) =>
  -- TODO also clean up files when not copying
  if !conf.DoCopy then ⟨none, w6⟩
  else
  let transformConf : transformConfig :=
    { config := conf, manifest := newManifest, pathToSlug := pathToSlug }
  match S.transferAndTransformAll transformConf w6 with
  | (.error e, w7) => ⟨some e, w7⟩
  | (.ok whitelist, w7) =>
  -- whitelist all our files
  let imageFolder := conf.ImageFolderPath
  let whitelist1 := whitelistAll imageFolder whitelist newManifest
  match S.deleteNonWhitelist conf whitelist1 w7 with
  | (err, w8) => ⟨err, w8⟩

/-! ## Recording the calls -/

/-- The stages `S`, recording: the world carries the list of the applications
made so far, and every stage, after doing exactly what `S` does, appends its
own application (world, arguments, result of `S`) to that list.  The pure
`yamlParse` touches no world and is left as it is. -/
def traced {W : Type} (S : Stages W) : Stages (W × List (Call W)) where
  readFileBytes := fun p s =>
    ((S.readFileBytes p s.1).1,
      ((S.readFileBytes p s.1).2, s.2 ++ [.readFileBytes s.1 p (S.readFileBytes p s.1).1]))
  yamlParse := S.yamlParse
  discoverImages := fun conf root s =>
    ((S.discoverImages conf root s.1).1,
      ((S.discoverImages conf root s.1).2,
        s.2 ++ [.discoverImages s.1 conf root (S.discoverImages conf root s.1).1]))
  readManifest := fun p s =>
    ((S.readManifest p s.1).1,
      ((S.readManifest p s.1).2, s.2 ++ [.readManifest s.1 p (S.readManifest p s.1).1]))
  mkdirAll := fun p s =>
    ((S.mkdirAll p s.1).1, ((S.mkdirAll p s.1).2, s.2 ++ [.mkdirAll s.1 p (S.mkdirAll p s.1).1]))
  buildNewManifest := fun conf found old s =>
    ((S.buildNewManifest conf found old s.1).1,
      ((S.buildNewManifest conf found old s.1).2,
        s.2 ++ [.buildNewManifest s.1 conf found old (S.buildNewManifest conf found old s.1).1]))
  saveManifest := fun p m s =>
    ((S.saveManifest p m s.1).1,
      ((S.saveManifest p m s.1).2, s.2 ++ [.saveManifest s.1 p m (S.saveManifest p m s.1).1]))
  transferAndTransformAll := fun tc s =>
    ((S.transferAndTransformAll tc s.1).1,
      ((S.transferAndTransformAll tc s.1).2,
        s.2 ++ [.transferAndTransformAll s.1 tc (S.transferAndTransformAll tc s.1).1]))
  deleteNonWhitelist := fun conf wl s =>
    ((S.deleteNonWhitelist conf wl s.1).1,
      ((S.deleteNonWhitelist conf wl s.1).2,
        s.2 ++ [.deleteNonWhitelist s.1 conf wl (S.deleteNonWhitelist conf wl s.1).1]))

/-- The applications of the stages of `S` that `buildFastSite` makes on the
world `w0`, in order: what the recording stages have recorded at the end of
the run. -/
def trace {W : Type} (S : Stages W) (basePath : String) (doCulling : Bool) (w0 : W) :
    List (Call W) :=
  (buildFastSite (traced S) basePath doCulling (w0, [])).world.2

/-- The calls of `buildFastSite` in the order of its source text; the first is
the `readFileBytes` of `readConfig`. -/
def stageOrder : List String :=
  ["readFileBytes", "discoverImages", "readManifest", "os.MkdirAll", "buildNewManifest",
    "saveManifest", "transferAndTransformAll", "deleteNonWhitelist"]

/-! ## A small concrete world, for examples -/

/-- A world without state in which the configuration file sets the fields of
`doc`, one image `a.jpg` is found, the old manifest is `old`, the new manifest
is `new`, the transformer returns the whitelist `kept`, and the stage whose
name is `failing` (if any; `readConfig` stands for its `readFileBytes`) returns
the error `"boom"`. -/
def stubStages (doc : YamlDoc) (old new : manifest) (kept : List String)
    (failing : Option String) : Stages Unit where
  readFileBytes := fun _ w =>
    (if failing = some "readConfig" then .error "boom" else .ok [], w)
  yamlParse := fun _ => (doc, none)
  discoverImages := fun _ _ w =>
    (if failing = some "discoverImages" then .error "boom" else .ok ["a.jpg"], w)
  readManifest := fun _ w =>
    (if failing = some "readManifest" then .error "boom" else .ok old, w)
  mkdirAll := fun _ w => (if failing = some "os.MkdirAll" then some "boom" else none, w)
  buildNewManifest := fun _ _ _ w =>
    (if failing = some "buildNewManifest" then .error "boom" else .ok (new, [("a.jpg", "a")]), w)
  saveManifest := fun _ _ w => (if failing = some "saveManifest" then some "boom" else none, w)
  transferAndTransformAll := fun _ w =>
    (if failing = some "transferAndTransformAll" then .error "boom" else .ok kept, w)
  deleteNonWhitelist := fun _ _ w =>
    (if failing = some "deleteNonWhitelist" then some "boom" else none, w)

/-- A manifest with the single entry of `a.jpg`, generated at width 400. -/
def oneEntry : manifest :=
  [{ Slug := "a", Fingerprint := "f0", Files := [{ FileName := "a-400.jpg", Width := 400, Format := "jpg" }] }]

/-- A manifest with the single entry of an image `b.jpg` that is no longer found. -/
def staleEntry : manifest :=
  [{ Slug := "b", Fingerprint := "f1", Files := [{ FileName := "b-400.jpg", Width := 400, Format := "jpg" }] }]

/-- A world whose state counts the stage applications made so far; every stage
succeeds as in `stubStages` with the new manifest `oneEntry`, and adds one. -/
def countingStages : Stages Nat where
  readFileBytes := fun _ w => (.ok [], w + 1)
  yamlParse := fun _ => (YamlDoc.empty, none)
  discoverImages := fun _ _ w => (.ok ["a.jpg"], w + 1)
  readManifest := fun _ w => (.ok staleEntry, w + 1)
  mkdirAll := fun _ w => (none, w + 1)
  buildNewManifest := fun _ _ _ w => (.ok (oneEntry, [("a.jpg", "a")]), w + 1)
  saveManifest := fun _ _ w => (none, w + 1)
  transferAndTransformAll := fun _ w => (.ok [], w + 1)
  deleteNonWhitelist := fun _ _ w => (none, w + 1)

/-! ## The shape of a run -/

/-- The configuration `buildFastSite` works with: the one `readConfig` returned,
with `basePath` and `doCulling` filled in (lines 97-98). -/
def runConf (conf0 : config) (basePath : String) (doCulling : Bool) : config :=
  { conf0 with basePath := basePath, doCulling := doCulling }

/-- The manifest path computed at lines 105-108. -/
def manifestPathOf (conf : config) : String :=
  if conf.ManifestFile != "" then pathJoin [conf.basePath, conf.ManifestFile]
  else conf.ManifestFile

/-- The world of the examples: the configuration file sets nothing, the old
manifest holds the stale entry of `b.jpg`, the new manifest the entry of
`a.jpg`, and the transformer keeps the copied original. -/
def demoStages (failing : Option String) : Stages Unit :=
  stubStages YamlDoc.empty staleEntry oneEntry ["/site/_fastsite/assets/images/a.jpg"] failing

/-- The configuration of the runs of `demoStages` on the base path `/site`. -/
def demoConf (dc : Bool) : config := runConf defaultConfig "/site" dc

/-- A configuration file that only turns copying off (`DoCopy: false`). -/
def noCopyDoc : YamlDoc := { YamlDoc.empty with DoCopy := some false }

/-- The recorded `readFileBytes` of `readConfig`, applied to the world `w0`. -/
def readCall {W : Type} (S : Stages W) (bp : String) (w0 : W) : Call W :=
  .readFileBytes w0 (pathJoin [bp, "enfasten.yml"])
    (S.readFileBytes (pathJoin [bp, "enfasten.yml"]) w0).1

/-- The calls of a run up to and including a successful `readManifest`. -/
def logToRead {W : Type} (S : Stages W) (bp : String) (dc : Bool) (w0 : W) (conf0 : config)
    (w1 : W) (found : List String) (w2 : W) (old : manifest) : List (Call W) :=
  [readCall S bp w0,
   .discoverImages w1 (runConf conf0 bp dc) (pathJoin [bp, conf0.InputFolder]) (.ok found),
   .readManifest w2 (manifestPathOf (runConf conf0 bp dc)) (.ok old)]

/-- The calls of a run up to and including a successful `saveManifest`. -/
def logToSave {W : Type} (S : Stages W) (bp : String) (dc : Bool) (w0 : W) (conf0 : config)
    (w1 : W) (found : List String) (w2 : W) (old : manifest) (w3 w4 : W) (nm : manifest)
    (pts : PathToSlug) (w5 : W) : List (Call W) :=
  logToRead S bp dc w0 conf0 w1 found w2 old ++
  [.mkdirAll w3 (runConf conf0 bp dc).ImageFolderPath none,
   .buildNewManifest w4 (runConf conf0 bp dc) found old (.ok (nm, pts)),
   .saveManifest w5 (manifestPathOf (runConf conf0 bp dc)) nm none]

/-- The successful applications of `readConfig`, `discoverImages` and
`readManifest`, each on the world the one before left. -/
def ReadOk {W : Type} (S : Stages W) (bp : String) (dc : Bool) (w0 : W) (conf0 : config)
    (w1 : W) (found : List String) (w2 : W) (old : manifest) (w3 : W) : Prop :=
  readConfig S bp w0 = ((conf0, none), w1) ∧
  S.discoverImages (runConf conf0 bp dc) (pathJoin [bp, conf0.InputFolder]) w1 =
    (.ok found, w2) ∧
  S.readManifest (manifestPathOf (runConf conf0 bp dc)) w2 = (.ok old, w3)

/-- The successful applications of every stage up to `saveManifest`, each on
the world the one before left. -/
def SaveOk {W : Type} (S : Stages W) (bp : String) (dc : Bool) (w0 : W) (conf0 : config)
    (w1 : W) (found : List String) (w2 : W) (old : manifest) (w3 w4 : W) (nm : manifest)
    (pts : PathToSlug) (w5 w6 : W) : Prop :=
  ReadOk S bp dc w0 conf0 w1 found w2 old w3 ∧
  S.mkdirAll (runConf conf0 bp dc).ImageFolderPath w3 = (none, w4) ∧
  S.buildNewManifest (runConf conf0 bp dc) found old w4 = (.ok (nm, pts), w5) ∧
  S.saveManifest (manifestPathOf (runConf conf0 bp dc)) nm w5 = (none, w6)

/-- The nine ways a run of `buildFastSite` can go: the result and the recorded
calls, for a failure at `readConfig` and at each of the six stages that come
between it and `deleteNonWhitelist`, for the early return when `DoCopy` is off,
and for a run that reaches `deleteNonWhitelist`, whose result is then returned.
Each way comes with the stage applications that lead to it. -/
inductive RunShape {W : Type} (S : Stages W) (bp : String) (dc : Bool) (w0 : W) :
    Run W → List (Call W) → Prop
  | readConfigFails (conf0 : config) (e : GoError) (w1 : W)
      (h1 : readConfig S bp w0 = ((conf0, some e), w1)) :
      RunShape S bp dc w0 ⟨some e, w1⟩ [readCall S bp w0]
  | discoverFails (conf0 : config) (w1 : W) (e : GoError) (w2 : W)
      (h1 : readConfig S bp w0 = ((conf0, none), w1))
      (h2 : S.discoverImages (runConf conf0 bp dc) (pathJoin [bp, conf0.InputFolder]) w1 =
        (.error e, w2)) :
      RunShape S bp dc w0 ⟨some e, w2⟩
        [readCall S bp w0,
         .discoverImages w1 (runConf conf0 bp dc) (pathJoin [bp, conf0.InputFolder]) (.error e)]
  | readManifestFails (conf0 : config) (w1 : W) (found : List String) (w2 : W) (e : GoError)
      (w3 : W)
      (h1 : readConfig S bp w0 = ((conf0, none), w1))
      (h2 : S.discoverImages (runConf conf0 bp dc) (pathJoin [bp, conf0.InputFolder]) w1 =
        (.ok found, w2))
      (h3 : S.readManifest (manifestPathOf (runConf conf0 bp dc)) w2 = (.error e, w3)) :
      RunShape S bp dc w0 ⟨some e, w3⟩
        [readCall S bp w0,
         .discoverImages w1 (runConf conf0 bp dc) (pathJoin [bp, conf0.InputFolder]) (.ok found),
         .readManifest w2 (manifestPathOf (runConf conf0 bp dc)) (.error e)]
  | mkdirFails (conf0 : config) (w1 : W) (found : List String) (w2 : W) (old : manifest)
      (w3 : W) (e : GoError) (w4 : W)
      (hr : ReadOk S bp dc w0 conf0 w1 found w2 old w3)
      (h4 : S.mkdirAll (runConf conf0 bp dc).ImageFolderPath w3 = (some e, w4)) :
      RunShape S bp dc w0 ⟨some e, w4⟩
        (logToRead S bp dc w0 conf0 w1 found w2 old ++
          [.mkdirAll w3 (runConf conf0 bp dc).ImageFolderPath (some e)])
  | buildFails (conf0 : config) (w1 : W) (found : List String) (w2 : W) (old : manifest)
      (w3 w4 : W) (e : GoError) (w5 : W)
      (hr : ReadOk S bp dc w0 conf0 w1 found w2 old w3)
      (h4 : S.mkdirAll (runConf conf0 bp dc).ImageFolderPath w3 = (none, w4))
      (h5 : S.buildNewManifest (runConf conf0 bp dc) found old w4 = (.error e, w5)) :
      RunShape S bp dc w0 ⟨some e, w5⟩
        (logToRead S bp dc w0 conf0 w1 found w2 old ++
          [.mkdirAll w3 (runConf conf0 bp dc).ImageFolderPath none,
           .buildNewManifest w4 (runConf conf0 bp dc) found old (.error e)])
  | saveFails (conf0 : config) (w1 : W) (found : List String) (w2 : W) (old : manifest)
      (w3 w4 : W) (nm : manifest) (pts : PathToSlug) (w5 : W) (e : GoError) (w6 : W)
      (hr : ReadOk S bp dc w0 conf0 w1 found w2 old w3)
      (h4 : S.mkdirAll (runConf conf0 bp dc).ImageFolderPath w3 = (none, w4))
      (h5 : S.buildNewManifest (runConf conf0 bp dc) found old w4 = (.ok (nm, pts), w5))
      (h6 : S.saveManifest (manifestPathOf (runConf conf0 bp dc)) nm w5 = (some e, w6)) :
      RunShape S bp dc w0 ⟨some e, w6⟩
        (logToRead S bp dc w0 conf0 w1 found w2 old ++
          [.mkdirAll w3 (runConf conf0 bp dc).ImageFolderPath none,
           .buildNewManifest w4 (runConf conf0 bp dc) found old (.ok (nm, pts)),
           .saveManifest w5 (manifestPathOf (runConf conf0 bp dc)) nm (some e)])
  | noCopy (conf0 : config) (w1 : W) (found : List String) (w2 : W) (old : manifest)
      (w3 w4 : W) (nm : manifest) (pts : PathToSlug) (w5 w6 : W)
      (hs : SaveOk S bp dc w0 conf0 w1 found w2 old w3 w4 nm pts w5 w6)
      (hcopy : conf0.DoCopy = false) :
      RunShape S bp dc w0 ⟨none, w6⟩ (logToSave S bp dc w0 conf0 w1 found w2 old w3 w4 nm pts w5)
  | transformFails (conf0 : config) (w1 : W) (found : List String) (w2 : W) (old : manifest)
      (w3 w4 : W) (nm : manifest) (pts : PathToSlug) (w5 w6 : W) (e : GoError) (w7 : W)
      (hs : SaveOk S bp dc w0 conf0 w1 found w2 old w3 w4 nm pts w5 w6)
      (hcopy : conf0.DoCopy = true)
      (h7 : S.transferAndTransformAll ⟨runConf conf0 bp dc, nm, pts⟩ w6 = (.error e, w7)) :
      RunShape S bp dc w0 ⟨some e, w7⟩
        (logToSave S bp dc w0 conf0 w1 found w2 old w3 w4 nm pts w5 ++
          [.transferAndTransformAll w6 ⟨runConf conf0 bp dc, nm, pts⟩ (.error e)])
  | collected (conf0 : config) (w1 : W) (found : List String) (w2 : W) (old : manifest)
      (w3 w4 : W) (nm : manifest) (pts : PathToSlug) (w5 w6 : W) (kept : List String) (w7 : W)
      (hs : SaveOk S bp dc w0 conf0 w1 found w2 old w3 w4 nm pts w5 w6)
      (hcopy : conf0.DoCopy = true)
      (h7 : S.transferAndTransformAll ⟨runConf conf0 bp dc, nm, pts⟩ w6 = (.ok kept, w7)) :
      RunShape S bp dc w0
        ⟨(S.deleteNonWhitelist (runConf conf0 bp dc)
            (whitelistAll (runConf conf0 bp dc).ImageFolderPath kept nm) w7).1,
          (S.deleteNonWhitelist (runConf conf0 bp dc)
            (whitelistAll (runConf conf0 bp dc).ImageFolderPath kept nm) w7).2⟩
        (logToSave S bp dc w0 conf0 w1 found w2 old w3 w4 nm pts w5 ++
          [.transferAndTransformAll w6 ⟨runConf conf0 bp dc, nm, pts⟩ (.ok kept),
           .deleteNonWhitelist w7 (runConf conf0 bp dc)
             (whitelistAll (runConf conf0 bp dc).ImageFolderPath kept nm)
             (S.deleteNonWhitelist (runConf conf0 bp dc)
               (whitelistAll (runConf conf0 bp dc).ImageFolderPath kept nm) w7).1])

/-! ## The recording stages -/

/-- What the recording `discoverImages` does. -/
theorem traced_discoverImages {W : Type} (S : Stages W) (conf : config) (root : String) (w : W)
    (l : List (Call W)) :
    (traced S).discoverImages conf root (w, l) =
      ((S.discoverImages conf root w).1,
        ((S.discoverImages conf root w).2,
          l ++ [.discoverImages w conf root (S.discoverImages conf root w).1])) := rfl

/-- What the recording `readManifest` does. -/
theorem traced_readManifest {W : Type} (S : Stages W) (p : String) (w : W) (l : List (Call W)) :
    (traced S).readManifest p (w, l) =
      ((S.readManifest p w).1,
        ((S.readManifest p w).2, l ++ [.readManifest w p (S.readManifest p w).1])) := rfl

/-- What the recording `os.MkdirAll` does. -/
theorem traced_mkdirAll {W : Type} (S : Stages W) (p : String) (w : W) (l : List (Call W)) :
    (traced S).mkdirAll p (w, l) =
      ((S.mkdirAll p w).1, ((S.mkdirAll p w).2, l ++ [.mkdirAll w p (S.mkdirAll p w).1])) := rfl

/-- What the recording `buildNewManifest` does. -/
theorem traced_buildNewManifest {W : Type} (S : Stages W) (conf : config) (found : List String)
    (old : manifest) (w : W) (l : List (Call W)) :
    (traced S).buildNewManifest conf found old (w, l) =
      ((S.buildNewManifest conf found old w).1,
        ((S.buildNewManifest conf found old w).2,
          l ++ [.buildNewManifest w conf found old (S.buildNewManifest conf found old w).1])) :=
  rfl

/-- What the recording `saveManifest` does. -/
theorem traced_saveManifest {W : Type} (S : Stages W) (p : String) (m : manifest) (w : W)
    (l : List (Call W)) :
    (traced S).saveManifest p m (w, l) =
      ((S.saveManifest p m w).1,
        ((S.saveManifest p m w).2, l ++ [.saveManifest w p m (S.saveManifest p m w).1])) := rfl

/-- What the recording `transferAndTransformAll` does. -/
theorem traced_transferAndTransformAll {W : Type} (S : Stages W) (tc : transformConfig) (w : W)
    (l : List (Call W)) :
    (traced S).transferAndTransformAll tc (w, l) =
      ((S.transferAndTransformAll tc w).1,
        ((S.transferAndTransformAll tc w).2,
          l ++ [.transferAndTransformAll w tc (S.transferAndTransformAll tc w).1])) := rfl

/-- What the recording `deleteNonWhitelist` does. -/
theorem traced_deleteNonWhitelist {W : Type} (S : Stages W) (conf : config) (wl : List String)
    (w : W) (l : List (Call W)) :
    (traced S).deleteNonWhitelist conf wl (w, l) =
      ((S.deleteNonWhitelist conf wl w).1,
        ((S.deleteNonWhitelist conf wl w).2,
          l ++ [.deleteNonWhitelist w conf wl (S.deleteNonWhitelist conf wl w).1])) := rfl

/-- The recording stages do to `readConfig` what `S` does, and record its
`readFileBytes`. -/
theorem readConfig_traced {W : Type} (S : Stages W) (bp : String) (w : W) (l : List (Call W)) :
    readConfig (traced S) bp (w, l) =
      ((readConfig S bp w).1, ((readConfig S bp w).2, l ++ [readCall S bp w])) := by
  unfold readConfig readCall
  simp only [traced]
  rcases h : S.readFileBytes (pathJoin [bp, "enfasten.yml"]) w with ⟨_ | _, w1⟩ <;> simp [h]

/-- Every run of `buildFastSite` has one of the nine shapes, and on the
recording stages it returns the same error, leaves the same world, and has
recorded the calls of that shape. -/
theorem run_shape_traced {W : Type} (S : Stages W) (bp : String) (dc : Bool) (w0 : W) :
    ∃ r t, RunShape S bp dc w0 r t ∧ buildFastSite S bp dc w0 = r ∧
      buildFastSite (traced S) bp dc (w0, []) = ⟨r.err, (r.world, t)⟩ := by
  rcases h1 : readConfig S bp w0 with ⟨⟨conf0, err0⟩, w1⟩
  have h1t : readConfig (traced S) bp (w0, []) = ((conf0, err0), (w1, [readCall S bp w0])) := by
    rw [readConfig_traced, h1]
    rfl
  cases err0 with
  | some e =>
    exact ⟨_, _, .readConfigFails conf0 e w1 h1, by simp [buildFastSite, h1],
      by simp [buildFastSite, h1t]⟩
  | none =>
  rcases h2 : S.discoverImages (runConf conf0 bp dc) (pathJoin [bp, conf0.InputFolder]) w1
    with ⟨e | found, w2⟩
  · have h2s := h2
    simp only [runConf] at h2s
    exact ⟨_, _, .discoverFails conf0 w1 _ w2 h1 h2, by simp [buildFastSite, h1, h2s],
      by simp [buildFastSite, runConf, h1t, traced_discoverImages, h2s]⟩
  rcases h3 : S.readManifest (manifestPathOf (runConf conf0 bp dc)) w2 with ⟨e | old, w3⟩
  · have h2s := h2
    have h3s := h3
    simp [runConf, manifestPathOf] at h2s h3s
    exact ⟨_, _, .readManifestFails conf0 w1 found w2 _ w3 h1 h2 h3,
      by simp [buildFastSite, h1, h2s, h3s],
      by simp [buildFastSite, runConf, manifestPathOf, h1t, traced_discoverImages,
        traced_readManifest, h2s, h3s]⟩
  have hr : ReadOk S bp dc w0 conf0 w1 found w2 old w3 := ⟨h1, h2, h3⟩
  rcases h4 : S.mkdirAll (runConf conf0 bp dc).ImageFolderPath w3 with ⟨e | _, w4⟩
  swap
  · have h2s := h2
    have h3s := h3
    have h4s := h4
    simp [runConf, manifestPathOf] at h2s h3s h4s
    exact ⟨_, _, .mkdirFails conf0 w1 found w2 old w3 _ w4 hr h4,
      by simp [buildFastSite, h1, h2s, h3s, h4s],
      by simp [buildFastSite, runConf, manifestPathOf, logToRead, h1t, traced_discoverImages,
        traced_readManifest, traced_mkdirAll, h2s, h3s, h4s]⟩
  rcases h5 : S.buildNewManifest (runConf conf0 bp dc) found old w4 with ⟨e | ⟨nm, pts⟩, w5⟩
  · have h2s := h2
    have h3s := h3
    have h4s := h4
    have h5s := h5
    simp [runConf, manifestPathOf] at h2s h3s h4s h5s
    exact ⟨_, _, .buildFails conf0 w1 found w2 old w3 w4 _ w5 hr h4 h5,
      by simp [buildFastSite, h1, h2s, h3s, h4s, h5s],
      by simp [buildFastSite, runConf, manifestPathOf, logToRead, h1t, traced_discoverImages,
        traced_readManifest, traced_mkdirAll, traced_buildNewManifest, h2s, h3s, h4s, h5s]⟩
  rcases h6 : S.saveManifest (manifestPathOf (runConf conf0 bp dc)) nm w5 with ⟨e | _, w6⟩
  swap
  · have h2s := h2
    have h3s := h3
    have h4s := h4
    have h5s := h5
    have h6s := h6
    simp [runConf, manifestPathOf] at h2s h3s h4s h5s h6s
    exact ⟨_, _, .saveFails conf0 w1 found w2 old w3 w4 nm pts w5 _ w6 hr h4 h5 h6,
      by simp [buildFastSite, h1, h2s, h3s, h4s, h5s, h6s],
      by simp [buildFastSite, runConf, manifestPathOf, logToRead, h1t, traced_discoverImages,
        traced_readManifest, traced_mkdirAll, traced_buildNewManifest, traced_saveManifest,
        h2s, h3s, h4s, h5s, h6s]⟩
  have hs : SaveOk S bp dc w0 conf0 w1 found w2 old w3 w4 nm pts w5 w6 := ⟨hr, h4, h5, h6⟩
  cases hcopy : conf0.DoCopy with
  | false =>
    have h2s := h2
    have h3s := h3
    have h4s := h4
    have h5s := h5
    have h6s := h6
    simp [runConf, manifestPathOf, hcopy] at h2s h3s h4s h5s h6s
    exact ⟨_, _, .noCopy conf0 w1 found w2 old w3 w4 nm pts w5 w6 hs hcopy,
      by simp [buildFastSite, h1, h2s, h3s, h4s, h5s, h6s, hcopy],
      by simp [buildFastSite, runConf, manifestPathOf, logToRead, logToSave, h1t,
        traced_discoverImages, traced_readManifest, traced_mkdirAll, traced_buildNewManifest,
        traced_saveManifest, h2s, h3s, h4s, h5s, h6s, hcopy]⟩
  | true =>
  rcases h7 : S.transferAndTransformAll ⟨runConf conf0 bp dc, nm, pts⟩ w6 with ⟨e | kept, w7⟩
  · have h2s := h2
    have h3s := h3
    have h4s := h4
    have h5s := h5
    have h6s := h6
    have h7s := h7
    simp [runConf, manifestPathOf, hcopy] at h2s h3s h4s h5s h6s h7s
    exact ⟨_, _, .transformFails conf0 w1 found w2 old w3 w4 nm pts w5 w6 _ w7 hs hcopy h7,
      by simp [buildFastSite, h1, h2s, h3s, h4s, h5s, h6s, h7s, hcopy],
      by simp [buildFastSite, runConf, manifestPathOf, logToRead, logToSave, h1t,
        traced_discoverImages, traced_readManifest, traced_mkdirAll, traced_buildNewManifest,
        traced_saveManifest, traced_transferAndTransformAll, h2s, h3s, h4s, h5s, h6s, h7s,
        hcopy]⟩
  · have h2s := h2
    have h3s := h3
    have h4s := h4
    have h5s := h5
    have h6s := h6
    have h7s := h7
    simp [runConf, manifestPathOf, hcopy] at h2s h3s h4s h5s h6s h7s
    exact ⟨_, _, .collected conf0 w1 found w2 old w3 w4 nm pts w5 w6 kept w7 hs hcopy h7,
      by simp [buildFastSite, runConf, h1, h2s, h3s, h4s, h5s, h6s, h7s, hcopy],
      by simp [buildFastSite, runConf, manifestPathOf, logToRead, logToSave, h1t,
        traced_discoverImages, traced_readManifest, traced_mkdirAll, traced_buildNewManifest,
        traced_saveManifest, traced_transferAndTransformAll, traced_deleteNonWhitelist,
        h2s, h3s, h4s, h5s, h6s, h7s, hcopy]⟩

/-- Every run of `buildFastSite`, with the calls recorded for it, has one of the
nine shapes. -/
theorem run_shape {W : Type} (S : Stages W) (bp : String) (dc : Bool) (w0 : W) :
    RunShape S bp dc w0 (buildFastSite S bp dc w0) (trace S bp dc w0) := by
  obtain ⟨r, t, hshape, hrun, htr⟩ := run_shape_traced S bp dc w0
  have ht : trace S bp dc w0 = t := by
    unfold trace
    rw [htr]
  rw [hrun, ht]
  exact hshape

/-- Recording changes nothing: on the recording stages `buildFastSite` returns
the error and leaves the world it does on `S`. -/
theorem traced_run {W : Type} (S : Stages W) (bp : String) (dc : Bool) (w0 : W) :
    (buildFastSite (traced S) bp dc (w0, [])).err = (buildFastSite S bp dc w0).err ∧
    (buildFastSite (traced S) bp dc (w0, [])).world.1 = (buildFastSite S bp dc w0).world := by
  obtain ⟨r, t, -, hrun, htr⟩ := run_shape_traced S bp dc w0
  rw [hrun, htr]
  exact ⟨rfl, rfl⟩

/-- The world `readConfig` leaves is the one its `readFileBytes` leaves. -/
theorem readConfig_world {W : Type} (S : Stages W) (bp : String) (w : W) :
    (readConfig S bp w).2 = (S.readFileBytes (pathJoin [bp, "enfasten.yml"]) w).2 := by
  unfold readConfig
  rcases h : S.readFileBytes (pathJoin [bp, "enfasten.yml"]) w with ⟨_ | _, w1⟩ <;> simp

/-- When its `readFileBytes` fails, `readConfig` returns that error. -/
theorem readConfig_read_error {W : Type} (S : Stages W) (bp : String) (w : W) (e : GoError)
    (h : (S.readFileBytes (pathJoin [bp, "enfasten.yml"]) w).1 = .error e) :
    (readConfig S bp w).1.2 = some e := by
  unfold readConfig
  rcases hr : S.readFileBytes (pathJoin [bp, "enfasten.yml"]) w with ⟨_ | _, w1⟩ <;>
    simp [hr] at h ⊢
  exact h

/-- Every recorded call is real: its result is the one `S` gives on the
recorded world and arguments. -/
theorem trace_real {W : Type} (S : Stages W) (bp : String) (dc : Bool) (w0 : W) :
    ∀ c ∈ trace S bp dc w0, c.real S := by
  have h := run_shape S bp dc w0
  generalize buildFastSite S bp dc w0 = r at h
  generalize trace S bp dc w0 = t at h
  cases h
  case readConfigFails => simp [readCall, Call.real]
  case discoverFails conf0 w1 e w2 h1 h2 => simp [readCall, Call.real, h2]
  case readManifestFails conf0 w1 found w2 e w3 h1 h2 h3 => simp [readCall, Call.real, h2, h3]
  case mkdirFails conf0 w1 found w2 old w3 e w4 hr h4 =>
    obtain ⟨h1, h2, h3⟩ := hr
    simp [logToRead, readCall, Call.real, h2, h3, h4]
  case buildFails conf0 w1 found w2 old w3 w4 e w5 hr h4 h5 =>
    obtain ⟨h1, h2, h3⟩ := hr
    simp [logToRead, readCall, Call.real, h2, h3, h4, h5]
  case saveFails conf0 w1 found w2 old w3 w4 nm pts w5 e w6 hr h4 h5 h6 =>
    obtain ⟨h1, h2, h3⟩ := hr
    simp [logToRead, readCall, Call.real, h2, h3, h4, h5, h6]
  case noCopy conf0 w1 found w2 old w3 w4 nm pts w5 w6 hs hcopy =>
    obtain ⟨⟨h1, h2, h3⟩, h4, h5, h6⟩ := hs
    simp [logToSave, logToRead, readCall, Call.real, h2, h3, h4, h5, h6]
  case transformFails conf0 w1 found w2 old w3 w4 nm pts w5 w6 e w7 hs hcopy h7 =>
    obtain ⟨⟨h1, h2, h3⟩, h4, h5, h6⟩ := hs
    simp [logToSave, logToRead, readCall, Call.real, h2, h3, h4, h5, h6, h7]
  case collected conf0 w1 found w2 old w3 w4 nm pts w5 w6 kept w7 hs hcopy h7 =>
    obtain ⟨⟨h1, h2, h3⟩, h4, h5, h6⟩ := hs
    simp [logToSave, logToRead, readCall, Call.real, h2, h3, h4, h5, h6, h7]

/-- The recorded calls are threaded through the world in the order recorded:
the first is applied to the initial world, each next one to the world the one
before left, and the run ends in the world the last one left. -/
theorem trace_threaded {W : Type} (S : Stages W) (bp : String) (dc : Bool) (w0 : W) :
    (trace S bp dc w0).head?.map Call.pre = some w0 ∧
    List.Chain' (fun a b => b.pre = a.post S) (trace S bp dc w0) ∧
    (trace S bp dc w0).getLast?.map (Call.post S) = some (buildFastSite S bp dc w0).world := by
  have h := run_shape S bp dc w0
  generalize buildFastSite S bp dc w0 = r at h ⊢
  generalize trace S bp dc w0 = t at h ⊢
  cases h
  case readConfigFails conf0 e w1 h1 =>
    have hw := readConfig_world S bp w0
    rw [h1] at hw
    simp [readCall, Call.pre, Call.post, ← hw]
  case discoverFails conf0 w1 e w2 h1 h2 =>
    have hw := readConfig_world S bp w0
    rw [h1] at hw
    simp [readCall, Call.pre, Call.post, ← hw, h2]
  case readManifestFails conf0 w1 found w2 e w3 h1 h2 h3 =>
    have hw := readConfig_world S bp w0
    rw [h1] at hw
    simp [readCall, Call.pre, Call.post, ← hw, h2, h3]
  case mkdirFails conf0 w1 found w2 old w3 e w4 hr h4 =>
    obtain ⟨h1, h2, h3⟩ := hr
    have hw := readConfig_world S bp w0
    rw [h1] at hw
    simp [logToRead, readCall, Call.pre, Call.post, ← hw, h2, h3, h4]
  case buildFails conf0 w1 found w2 old w3 w4 e w5 hr h4 h5 =>
    obtain ⟨h1, h2, h3⟩ := hr
    have hw := readConfig_world S bp w0
    rw [h1] at hw
    simp [logToRead, readCall, Call.pre, Call.post, ← hw, h2, h3, h4, h5]
  case saveFails conf0 w1 found w2 old w3 w4 nm pts w5 e w6 hr h4 h5 h6 =>
    obtain ⟨h1, h2, h3⟩ := hr
    have hw := readConfig_world S bp w0
    rw [h1] at hw
    simp [logToRead, readCall, Call.pre, Call.post, ← hw, h2, h3, h4, h5, h6]
  case noCopy conf0 w1 found w2 old w3 w4 nm pts w5 w6 hs hcopy =>
    obtain ⟨⟨h1, h2, h3⟩, h4, h5, h6⟩ := hs
    have hw := readConfig_world S bp w0
    rw [h1] at hw
    simp [logToSave, logToRead, readCall, Call.pre, Call.post, ← hw, h2, h3, h4, h5, h6]
  case transformFails conf0 w1 found w2 old w3 w4 nm pts w5 w6 e w7 hs hcopy h7 =>
    obtain ⟨⟨h1, h2, h3⟩, h4, h5, h6⟩ := hs
    have hw := readConfig_world S bp w0
    rw [h1] at hw
    simp [logToSave, logToRead, readCall, Call.pre, Call.post, ← hw, h2, h3, h4, h5, h6, h7]
  case collected conf0 w1 found w2 old w3 w4 nm pts w5 w6 kept w7 hs hcopy h7 =>
    obtain ⟨⟨h1, h2, h3⟩, h4, h5, h6⟩ := hs
    have hw := readConfig_world S bp w0
    rw [h1] at hw
    simp [logToSave, logToRead, readCall, Call.pre, Call.post, ← hw, h2, h3, h4, h5, h6, h7]

/-- The names of the recorded calls are an initial segment of `stageOrder`. -/
theorem trace_names_initial {W : Type} (S : Stages W) (bp : String) (dc : Bool) (w0 : W) :
    (trace S bp dc w0).map Call.name <+: stageOrder := by
  have h := run_shape S bp dc w0
  generalize buildFastSite S bp dc w0 = r at h
  generalize trace S bp dc w0 = t at h ⊢
  cases h <;> simp [logToSave, logToRead, readCall, Call.name, stageOrder]

/-- An `Except` result has the error `e` exactly when it is that error. -/
theorem errOf_eq_some {α : Type} (r : Except GoError α) (e : GoError) :
    errOf r = some e ↔ r = .error e := by
  cases r <;> simp [errOf]

/-- An error of the `readFileBytes` of `readConfig` is the error of `readConfig`. -/
theorem readCall_err {W : Type} (S : Stages W) (bp : String) (w : W) (e : GoError)
    (h : (readCall S bp w).err = some e) : (readConfig S bp w).1.2 = some e :=
  readConfig_read_error S bp w e ((errOf_eq_some _ _).1 h)

/-- When `readConfig` succeeds, so did its `readFileBytes`. -/
theorem readCall_ok {W : Type} (S : Stages W) (bp : String) (w : W) (conf0 : config) (w1 : W)
    (h1 : readConfig S bp w = ((conf0, none), w1)) : (readCall S bp w).err = none := by
  cases hc : (readCall S bp w).err with
  | none => rfl
  | some e =>
    have := readCall_err S bp w e hc
    rw [h1] at this
    cases this

/-- Every run has a last recorded call: the calls before it succeeded, an error
of it is the error returned, and when `nil` is returned it succeeded, and so
did `readConfig`. -/
theorem trace_last {W : Type} (S : Stages W) (bp : String) (dc : Bool) (w0 : W) :
    ∃ pre last, trace S bp dc w0 = pre ++ [last] ∧ (∀ c ∈ pre, c.err = none) ∧
      (∀ e, last.err = some e → (buildFastSite S bp dc w0).err = some e) ∧
      ((buildFastSite S bp dc w0).err = none →
        last.err = none ∧ (readConfig S bp w0).1.2 = none) := by
  have h := run_shape S bp dc w0
  generalize buildFastSite S bp dc w0 = r at h ⊢
  generalize trace S bp dc w0 = t at h ⊢
  cases h
  case readConfigFails conf0 e w1 h1 =>
    refine ⟨[], readCall S bp w0, rfl, by simp, ?_, by simp⟩
    intro e' he'
    have := readCall_err S bp w0 e' he'
    rw [h1] at this
    simpa using this
  case discoverFails conf0 w1 e w2 h1 h2 =>
    have hok := readCall_ok S bp w0 conf0 w1 h1
    refine ⟨[readCall S bp w0], Call.discoverImages w1 _ _ (.error e), rfl, ?_, ?_, ?_⟩ <;>
      simp_all [readCall, Call.err, errOf]
  case readManifestFails conf0 w1 found w2 e w3 h1 h2 h3 =>
    have hok := readCall_ok S bp w0 conf0 w1 h1
    refine ⟨[readCall S bp w0, Call.discoverImages w1 _ _ (.ok found)],
      Call.readManifest w2 _ (.error e), rfl, ?_, ?_, ?_⟩ <;>
      simp_all [readCall, Call.err, errOf]
  case mkdirFails conf0 w1 found w2 old w3 e w4 hr h4 =>
    have hok := readCall_ok S bp w0 conf0 w1 hr.1
    refine ⟨logToRead S bp dc w0 conf0 w1 found w2 old, Call.mkdirAll w3 _ (some e), rfl,
      ?_, ?_, ?_⟩ <;>
      simp_all [logToRead, readCall, Call.err, errOf]
  case buildFails conf0 w1 found w2 old w3 w4 e w5 hr h4 h5 =>
    have hok := readCall_ok S bp w0 conf0 w1 hr.1
    refine ⟨logToRead S bp dc w0 conf0 w1 found w2 old ++ [Call.mkdirAll w3 (runConf conf0 bp dc).ImageFolderPath none],
      Call.buildNewManifest w4 (runConf conf0 bp dc) found old (.error e), by simp, ?_, ?_, ?_⟩ <;>
      simp_all [logToRead, readCall, Call.err, errOf]
  case saveFails conf0 w1 found w2 old w3 w4 nm pts w5 e w6 hr h4 h5 h6 =>
    have hok := readCall_ok S bp w0 conf0 w1 hr.1
    refine ⟨logToRead S bp dc w0 conf0 w1 found w2 old ++
        [Call.mkdirAll w3 (runConf conf0 bp dc).ImageFolderPath none,
          Call.buildNewManifest w4 (runConf conf0 bp dc) found old (.ok (nm, pts))],
      Call.saveManifest w5 (manifestPathOf (runConf conf0 bp dc)) nm (some e), by simp, ?_, ?_, ?_⟩ <;>
      simp_all [logToRead, readCall, Call.err, errOf]
  case noCopy conf0 w1 found w2 old w3 w4 nm pts w5 w6 hs hcopy =>
    have h1 := hs.1.1
    have hok := readCall_ok S bp w0 conf0 w1 h1
    refine ⟨logToRead S bp dc w0 conf0 w1 found w2 old ++
        [Call.mkdirAll w3 (runConf conf0 bp dc).ImageFolderPath none,
          Call.buildNewManifest w4 (runConf conf0 bp dc) found old (.ok (nm, pts))],
      Call.saveManifest w5 (manifestPathOf (runConf conf0 bp dc)) nm none, by simp [logToSave], ?_, ?_, ?_⟩ <;>
      simp_all [logToRead, readCall, Call.err, errOf]
  case transformFails conf0 w1 found w2 old w3 w4 nm pts w5 w6 e w7 hs hcopy h7 =>
    have h1 := hs.1.1
    have hok := readCall_ok S bp w0 conf0 w1 h1
    refine ⟨logToSave S bp dc w0 conf0 w1 found w2 old w3 w4 nm pts w5,
      Call.transferAndTransformAll w6 _ (.error e), rfl, ?_, ?_, ?_⟩ <;>
      simp_all [logToSave, logToRead, readCall, Call.err, errOf]
  case collected conf0 w1 found w2 old w3 w4 nm pts w5 w6 kept w7 hs hcopy h7 =>
    have h1 := hs.1.1
    have hok := readCall_ok S bp w0 conf0 w1 h1
    refine ⟨logToSave S bp dc w0 conf0 w1 found w2 old w3 w4 nm pts w5 ++
        [Call.transferAndTransformAll w6 ⟨(runConf conf0 bp dc), nm, pts⟩ (.ok kept)],
      Call.deleteNonWhitelist w7 (runConf conf0 bp dc)
        (whitelistAll (runConf conf0 bp dc).ImageFolderPath kept nm)
        (S.deleteNonWhitelist (runConf conf0 bp dc)
          (whitelistAll (runConf conf0 bp dc).ImageFolderPath kept nm) w7).1, by simp, ?_, ?_, ?_⟩ <;>
      simp_all [logToSave, logToRead, readCall, Call.err, errOf]

/-! ## Lemmas on the path functions -/

/-- The model of `path.Clean` agrees with the table of Go's own tests of it. -/
theorem pathClean_go_tests :
    [("", "."), ("abc", "abc"), ("abc/def", "abc/def"), ("a/b/c", "a/b/c"), (".", "."),
      ("..", ".."), ("../..", "../.."), ("../../abc", "../../abc"), ("/abc", "/abc"),
      ("/", "/"), ("abc/", "abc"), ("abc/def/", "abc/def"), ("a/b/c/", "a/b/c"), ("./", "."),
      ("../", ".."), ("../../", "../.."), ("/abc/", "/abc"), ("abc//def//ghi", "abc/def/ghi"),
      ("//abc", "/abc"), ("///abc", "/abc"), ("//abc//", "/abc"), ("abc//", "abc"),
      ("abc/./def", "abc/def"), ("/./abc/def", "/abc/def"), ("abc/.", "abc"),
      ("abc/def/ghi/../jkl", "abc/def/jkl"), ("abc/def/../ghi/../jkl", "abc/jkl"),
      ("abc/def/..", "abc"), ("abc/def/../..", "."), ("/abc/def/../..", "/"),
      ("abc/def/../../..", ".."), ("/abc/def/../../..", "/"),
      ("abc/def/../../../ghi/jkl/../../../mno", "../../mno"), ("abc/./../def", "def"),
      ("abc//./../def", "def"), ("abc/../../././../def", "../../def")].all
      (fun t => pathClean t.1 == t.2) = true := by
  decide

/-- The model of `path.Join` agrees with the table of Go's own tests of it. -/
theorem pathJoin_go_tests :
    [([], ""), ([""], ""), (["a"], "a"), (["a", "b"], "a/b"), (["a", ""], "a"), (["", "b"], "b"),
      (["/", "a"], "/a"), (["/", ""], "/"), (["a/", "b"], "a/b"), (["a/", ""], "a"),
      (["", ""], "")].all
      (fun t => pathJoin t.1 == t.2) = true := by
  decide

/-- Backtracking never goes below `dotdot`. -/
theorem backtrack_ge (buf : List Char) (dotdot : Nat) :
    ∀ w, dotdot ≤ w → dotdot ≤ backtrack buf dotdot w := by
  intro w
  induction w with
  | zero => intro h; simpa [backtrack] using h
  | succ w ih =>
    intro h
    unfold backtrack
    split
    · next hc =>
      simp only [Bool.and_eq_true, decide_eq_true_eq] at hc
      exact ih (by omega)
    · exact h

/-- Taking at least one element keeps the head. -/
theorem head?_take_pos {α : Type} (l : List α) (k : Nat) (hk : 1 ≤ k) :
    (l.take k).head? = l.head? := by
  cases l with
  | nil => simp
  | cons a t =>
    cases k with
    | zero => omega
    | succ k => simp

/-- Appending to a list that has a head keeps the head. -/
theorem head?_append_some {α : Type} (l m : List α) (a : α) (h : l.head? = some a) :
    (l ++ m).head? = some a := by
  cases l with
  | nil => simp at h
  | cons b t => simpa using h

/-- On a rooted path the loop of `path.Clean` never removes the leading `/`. -/
theorem cleanLoop_rooted_head (path : List Char) :
    ∀ (fuel r dotdot : Nat) (out : List Char), 1 ≤ dotdot → out.head? = some '/' →
      (cleanLoop path true fuel r dotdot out).head? = some '/' := by
  intro fuel
  induction fuel with
  | zero => intro r dotdot out _ h; simpa [cleanLoop] using h
  | succ fuel ih =>
    intro r dotdot out hd h
    unfold cleanLoop
    split
    · split
      · exact ih _ _ _ hd h
      · split
        · exact ih _ _ _ hd h
        · split
          · split
            · next hlen =>
              apply ih _ _ _ hd
              rw [head?_take_pos _ _ (le_trans hd (backtrack_ge _ _ _ (by omega)))]
              exact h
            · simp only [Bool.not_true, Bool.false_eq_true, ↓reduceIte]
              exact ih _ _ _ hd h
          · apply ih _ _ _ hd
            apply head?_append_some
            split
            · exact head?_append_some _ _ _ h
            · exact h
    · exact h

/-- Enough fuel: with at least `n - r` units the loop of `path.Clean` gives the
same result however much fuel it is given, so it never stops for lack of it. -/
theorem cleanLoop_fuel (path : List Char) (rooted : Bool) :
    ∀ (f g r dotdot : Nat) (out : List Char), path.length - r ≤ f → path.length - r ≤ g →
      cleanLoop path rooted f r dotdot out = cleanLoop path rooted g r dotdot out := by
  intro f
  induction f with
  | zero =>
    intro g r dotdot out hf _
    cases g with
    | zero => rfl
    | succ g =>
      have : ¬ r < path.length := by omega
      simp [cleanLoop, this]
  | succ f ih =>
    intro g r dotdot out hf hg
    cases g with
    | zero =>
      have : ¬ r < path.length := by omega
      simp [cleanLoop, this]
    | succ g =>
      unfold cleanLoop
      split
      · next hr =>
        split
        · exact ih _ _ _ _ (by omega) (by omega)
        · split
          · exact ih _ _ _ _ (by omega) (by omega)
          · split
            · split
              · exact ih _ _ _ _ (by omega) (by omega)
              · split
                · exact ih _ _ _ _ (by omega) (by omega)
                · exact ih _ _ _ _ (by omega) (by omega)
            · next h1 _ _ =>
              have hpos : 1 ≤ ((path.drop r).takeWhile (fun c => c != '/')).length := by
                have hne : path.getD r ' ' ≠ '/' := by simpa using h1
                rw [List.getD_eq_getElem _ _ hr] at hne
                rw [List.drop_eq_getElem_cons hr, List.takeWhile_cons]
                simp [hne]
              exact ih _ _ _ _ (by omega) (by omega)
      · rfl

/-- `path.Clean` keeps a leading `/`. -/
theorem cleanChars_rooted (path : List Char) (h : path.head? = some '/') :
    (cleanChars path).head? = some '/' := by
  cases path with
  | nil => simp at h
  | cons c t =>
    simp only [List.head?_cons, Option.some.injEq] at h
    subst h
    have key := cleanLoop_rooted_head ('/' :: t) ('/' :: t).length 1 1 ['/'] (le_refl 1) rfl
    unfold cleanChars
    simp only [reduceCtorEq, ↓reduceIte, List.getD_cons_zero, beq_self_eq_true]
    split
    · next hl =>
      simp only [beq_iff_eq, List.length_eq_zero] at hl
      rw [hl] at key
      simp at key
    · exact key

/-- The buffer of `path.Join` keeps the head it has. -/
theorem joinChars_head (c : Char) :
    ∀ (es : List String) (buf : List Char), buf.head? = some c →
      (joinChars buf es).head? = some c := by
  intro es
  induction es with
  | nil => intro buf h; simpa [joinChars] using h
  | cons e es ih =>
    intro buf h
    have hpos : buf.length > 0 := by
      cases buf with
      | nil => simp at h
      | cons _ _ => simp
    unfold joinChars
    simp only [hpos, decide_True, Bool.true_or, ↓reduceIte]
    apply ih
    rw [List.append_assoc]
    exact head?_append_some _ _ _ h

/-- `path.Join` of elements the first of which is absolute is absolute. -/
theorem pathJoin_isAbs (e : String) (es : List String) (h : pathIsAbs e = true) :
    pathIsAbs (pathJoin (e :: es)) = true := by
  have hd : e.data.head? = some '/' := by simpa [pathIsAbs] using h
  have hlen : 0 < e.length := by
    cases e with
    | mk d =>
      cases d with
      | nil => simp at hd
      | cons _ _ => simp [String.length]
  have hsum : ((e :: es).map String.length).sum ≠ 0 := by
    simp only [List.map_cons, List.sum_cons]
    omega
  have hne : e ≠ "" := by
    intro he
    rw [he] at hlen
    simp at hlen
  unfold pathJoin
  rw [if_neg hsum]
  simp only [pathIsAbs, beq_iff_eq]
  apply cleanChars_rooted
  unfold joinChars
  simp only [List.length_nil, gt_iff_lt, lt_self_iff_false, decide_False, Bool.false_or,
    bne_iff_ne, ne_eq, hne, not_false_eq_true, decide_True, ↓reduceIte, List.nil_append]
  exact joinChars_head _ _ _ hd

/-! ## Lemmas on the whitelist loop -/

/-- The inner loop appends the joined name of each file. -/
theorem mem_foldl_files (d : String) (files : List GeneratedFile) :
    ∀ (wl : List String) (p : String),
      p ∈ files.foldl (fun wl f => wl ++ [pathJoin [d, f.FileName]]) wl ↔
        p ∈ wl ∨ ∃ f ∈ files, p = pathJoin [d, f.FileName] := by
  induction files with
  | nil => intro wl p; simp
  | cons f fs ih =>
    intro wl p
    simp only [List.foldl_cons, ih, List.mem_append, List.mem_singleton, List.mem_cons,
      exists_eq_or_imp]
    tauto

/-- The whitelist loop adds the joined names of the files of every entry, and
nothing else. -/
theorem mem_whitelistAll (d : String) (m : manifest) :
    ∀ (wl : List String) (p : String),
      p ∈ whitelistAll d wl m ↔
        p ∈ wl ∨ ∃ entry ∈ m, ∃ f ∈ entry.Files, p = pathJoin [d, f.FileName] := by
  unfold whitelistAll
  induction m with
  | nil => intro wl p; simp
  | cons entry es ih =>
    intro wl p
    simp only [List.foldl_cons, ih, mem_foldl_files, List.mem_cons, exists_eq_or_imp, or_assoc]

/-! ## The claims -/

/-- C1: in a run of `buildFastSite` that reaches the Garbage Collector, the
whitelist that `deleteNonWhitelist` is applied to contains
`path.Join(conf.ImageFolderPath(), f.FileName)` for every generated file `f` of
every entry of the new manifest that `buildNewManifest` returned, whatever the
stages (among them `transferAndTransformAll`) returned.  The two recorded calls
are applications of the stages of `S`: the manifest is the result of
`S.buildNewManifest`, and the run returns what `S.deleteNonWhitelist` gives on
that whitelist. -/
theorem whitelist_contains_new_manifest {W : Type} (S : Stages W) (bp : String) (dc : Bool)
    (w0 : W) (wB : W) (conf : config) (found : List String) (old nm : manifest)
    (pts : PathToSlug) (wD : W) (c : config) (wl : List String) (e : Option GoError)
    (hB : Call.buildNewManifest wB conf found old (.ok (nm, pts)) ∈ trace S bp dc w0)
    (hD : Call.deleteNonWhitelist wD c wl e ∈ trace S bp dc w0) :
    (∀ entry ∈ nm, ∀ f ∈ entry.Files, pathJoin [c.ImageFolderPath, f.FileName] ∈ wl) ∧
    (S.buildNewManifest conf found old wB).1 = .ok (nm, pts) ∧
    buildFastSite S bp dc w0 =
      ⟨(S.deleteNonWhitelist c wl wD).1, (S.deleteNonWhitelist c wl wD).2⟩ := by
  have h := run_shape S bp dc w0
  generalize buildFastSite S bp dc w0 = r at h ⊢
  generalize trace S bp dc w0 = t at h hB hD
  cases h <;> simp [logToSave, logToRead, readCall] at hB hD
  case collected conf0 w1 found1 w2 old1 w3 w4 nm1 pts1 w5 w6 kept w7 hs hcopy h7 =>
    obtain ⟨rfl, rfl, rfl, rfl, rfl, rfl⟩ := hB
    obtain ⟨rfl, rfl, rfl, rfl⟩ := hD
    refine ⟨?_, ?_, rfl⟩
    · intro entry he f hf
      rw [mem_whitelistAll]
      exact Or.inr ⟨entry, he, f, hf, rfl⟩
    · rw [hs.2.2.1]

/-- C10: the whitelist that `deleteNonWhitelist` is applied to is, as a set,
the whitelist `transferAndTransformAll` returned united with the joined names
of the generated files of the entries of the new manifest; `buildFastSite` adds
nothing else (so nothing for an entry that only the old manifest has).  The
recorded calls are applications of the stages of `S`: the kept list is the
result of `S.transferAndTransformAll`, and the run returns what
`S.deleteNonWhitelist` gives on that whitelist. -/
theorem whitelist_is_kept_union_new_manifest {W : Type} (S : Stages W) (bp : String)
    (dc : Bool) (w0 : W) (wB : W) (conf : config) (found : List String) (old nm : manifest)
    (pts : PathToSlug) (wT : W) (tc : transformConfig) (kept : List String)
    (wD : W) (c : config) (wl : List String) (e : Option GoError)
    (hB : Call.buildNewManifest wB conf found old (.ok (nm, pts)) ∈ trace S bp dc w0)
    (hT : Call.transferAndTransformAll wT tc (.ok kept) ∈ trace S bp dc w0)
    (hD : Call.deleteNonWhitelist wD c wl e ∈ trace S bp dc w0) :
    (∀ p, p ∈ wl ↔
      p ∈ kept ∨
        ∃ entry ∈ nm, ∃ f ∈ entry.Files, p = pathJoin [c.ImageFolderPath, f.FileName]) ∧
    (S.buildNewManifest conf found old wB).1 = .ok (nm, pts) ∧
    (S.transferAndTransformAll tc wT).1 = .ok kept ∧
    buildFastSite S bp dc w0 =
      ⟨(S.deleteNonWhitelist c wl wD).1, (S.deleteNonWhitelist c wl wD).2⟩ := by
  have h := run_shape S bp dc w0
  generalize buildFastSite S bp dc w0 = r at h ⊢
  generalize trace S bp dc w0 = t at h hB hT hD
  cases h <;> simp [logToSave, logToRead, readCall] at hB hT hD
  case collected conf0 w1 found1 w2 old1 w3 w4 nm1 pts1 w5 w6 kept1 w7 hs hcopy h7 =>
    obtain ⟨rfl, rfl, rfl, rfl, rfl, rfl⟩ := hB
    obtain ⟨rfl, rfl, rfl⟩ := hT
    obtain ⟨rfl, rfl, rfl, rfl⟩ := hD
    refine ⟨?_, ?_, ?_, rfl⟩
    · intro p
      exact mem_whitelistAll _ _ _ _
    · rw [hs.2.2.1]
    · rw [h7]

/-- C1 at a concrete run: in the example world, run on `/site` with culling,
`buildNewManifest` returns the entry of `a.jpg`, `deleteNonWhitelist` is
applied to two paths, and the path of the generated file `a-400.jpg` is one of
them. -/
theorem whitelist_contains_new_manifest_witness :
    Call.buildNewManifest () (demoConf true) ["a.jpg"] staleEntry
        (.ok (oneEntry, [("a.jpg", "a")])) ∈ trace (demoStages none) "/site" true () ∧
    Call.deleteNonWhitelist () (demoConf true)
        ["/site/_fastsite/assets/images/a.jpg", "/site/_fastsite/assets/images/a-400.jpg"] none ∈
      trace (demoStages none) "/site" true () ∧
    pathJoin [(demoConf true).ImageFolderPath, "a-400.jpg"] ∈
      ["/site/_fastsite/assets/images/a.jpg", "/site/_fastsite/assets/images/a-400.jpg"] :=
  ⟨List.mem_iff_getElem?.2 ⟨4, by rfl⟩, List.mem_iff_getElem?.2 ⟨7, by rfl⟩,
    (whitelist_contains_new_manifest (demoStages none) "/site" true () () (demoConf true)
      ["a.jpg"] staleEntry oneEntry [("a.jpg", "a")] () (demoConf true)
      ["/site/_fastsite/assets/images/a.jpg", "/site/_fastsite/assets/images/a-400.jpg"] none
      (List.mem_iff_getElem?.2 ⟨4, by rfl⟩) (List.mem_iff_getElem?.2 ⟨7, by rfl⟩)).1
      ⟨"a", "f0", [⟨"a-400.jpg", 400, "jpg"⟩]⟩ (List.mem_singleton.2 rfl)
      ⟨"a-400.jpg", 400, "jpg"⟩ (List.mem_singleton.2 rfl)⟩

/-- C10 at a concrete run: in the example world the whitelist that
`deleteNonWhitelist` is applied to holds the kept copy and the file of the new
manifest, and not the file `b-400.jpg` of the stale entry of the old manifest. -/
theorem whitelist_is_kept_union_new_manifest_witness :
    Call.deleteNonWhitelist () (demoConf true)
        ["/site/_fastsite/assets/images/a.jpg", "/site/_fastsite/assets/images/a-400.jpg"] none ∈
      trace (demoStages none) "/site" true () ∧
    (∀ p, p ∈ ["/site/_fastsite/assets/images/a.jpg", "/site/_fastsite/assets/images/a-400.jpg"] ↔
      p ∈ ["/site/_fastsite/assets/images/a.jpg"] ∨
        ∃ entry ∈ oneEntry, ∃ f ∈ entry.Files,
          p = pathJoin [(demoConf true).ImageFolderPath, f.FileName]) ∧
    "/site/_fastsite/assets/images/b-400.jpg" ∉
      ["/site/_fastsite/assets/images/a.jpg", "/site/_fastsite/assets/images/a-400.jpg"] :=
  ⟨List.mem_iff_getElem?.2 ⟨7, by rfl⟩,
    (whitelist_is_kept_union_new_manifest (demoStages none) "/site" true () () (demoConf true)
      ["a.jpg"] staleEntry oneEntry [("a.jpg", "a")] ()
      ⟨demoConf true, oneEntry, [("a.jpg", "a")]⟩
      ["/site/_fastsite/assets/images/a.jpg"] () (demoConf true)
      ["/site/_fastsite/assets/images/a.jpg", "/site/_fastsite/assets/images/a-400.jpg"] none
      (List.mem_iff_getElem?.2 ⟨4, by rfl⟩) (List.mem_iff_getElem?.2 ⟨6, by rfl⟩)
      (List.mem_iff_getElem?.2 ⟨7, by rfl⟩)).1, by decide⟩

/-- C2, refuted as stated: in a world that counts the stage applications, every
stage succeeds and the stages are applied in the order below, each to the
world numbered beside it: `saveManifest` is applied to world 5 and
`transferAndTransformAll` to world 6, what `saveManifest` left; no
application of `transferAndTransformAll` comes before that of `saveManifest`. -/
theorem save_before_transform_counterexample :
    (trace countingStages "/site" true 0).map (fun c => (c.name, c.pre)) =
      [("readFileBytes", 0), ("discoverImages", 1), ("readManifest", 2), ("os.MkdirAll", 3),
        ("buildNewManifest", 4), ("saveManifest", 5), ("transferAndTransformAll", 6),
        ("deleteNonWhitelist", 7)] ∧
    ¬ ∀ i : Nat, ((trace countingStages "/site" true 0).map Call.name)[i]? =
          some "saveManifest" →
        ∃ j : Nat, j < i ∧
          ((trace countingStages "/site" true 0).map Call.name)[j]? =
            some "transferAndTransformAll" := by
  have hlog : (trace countingStages "/site" true 0).map Call.name =
      ["readFileBytes", "discoverImages", "readManifest", "os.MkdirAll", "buildNewManifest",
        "saveManifest", "transferAndTransformAll", "deleteNonWhitelist"] := by rfl
  refine ⟨by rfl, ?_⟩
  rw [hlog]
  intro h
  obtain ⟨j, hj, hj2⟩ := h 5 (by rfl)
  interval_cases j <;> simp at hj2

/-- C2, amended: in every run the stage applications are, in order, an initial
segment of readFileBytes (the read of `readConfig`), discoverImages,
readManifest, os.MkdirAll, buildNewManifest, saveManifest,
transferAndTransformAll, deleteNonWhitelist; so `saveManifest` is applied
before `transferAndTransformAll`, and `deleteNonWhitelist` only after both.
The order is the order in which the world is passed on: the first stage is
applied to the initial world, each next one to the world the one before left,
and the run ends in the world the last one left. -/
theorem calls_follow_stage_order {W : Type} (S : Stages W) (bp : String) (dc : Bool) (w0 : W) :
    (trace S bp dc w0).map Call.name <+:
      ["readFileBytes", "discoverImages", "readManifest", "os.MkdirAll", "buildNewManifest",
        "saveManifest", "transferAndTransformAll", "deleteNonWhitelist"] ∧
    (∀ i : Nat, ((trace S bp dc w0).map Call.name)[i]? = some "transferAndTransformAll" →
      i = 6 ∧ ((trace S bp dc w0).map Call.name)[5]? = some "saveManifest") ∧
    (∀ i : Nat, ((trace S bp dc w0).map Call.name)[i]? = some "deleteNonWhitelist" →
      i = 7 ∧ ((trace S bp dc w0).map Call.name)[5]? = some "saveManifest" ∧
        ((trace S bp dc w0).map Call.name)[6]? = some "transferAndTransformAll") ∧
    (trace S bp dc w0).head?.map Call.pre = some w0 ∧
    List.Chain' (fun a b => b.pre = a.post S) (trace S bp dc w0) ∧
    (trace S bp dc w0).getLast?.map (Call.post S) = some (buildFastSite S bp dc w0).world ∧
    ∀ c ∈ trace S bp dc w0, c.real S := by
  have hp := trace_names_initial S bp dc w0
  refine ⟨hp, ?_, ?_, (trace_threaded S bp dc w0).1, (trace_threaded S bp dc w0).2.1,
    (trace_threaded S bp dc w0).2.2, trace_real S bp dc w0⟩
  all_goals
    generalize (trace S bp dc w0).map Call.name = ns at *
    obtain ⟨t, ht⟩ := hp
    intro i hi
    have hlen : i < ns.length := by
      by_contra hge
      have hle : ns.length ≤ i := by omega
      have hn : ns[i]? = none := List.getElem?_eq_none hle
      rw [hn] at hi
      cases hi
    have hall : ∀ k, k < ns.length → ns[k]? = stageOrder[k]? := by
      intro k hk
      rw [← ht, List.getElem?_append_left hk]
    have hi8 : i < 8 := by
      have : (ns ++ t).length = 8 := by rw [ht]; rfl
      rw [List.length_append] at this
      omega
    rw [hall i hlen] at hi
    interval_cases i <;> simp [stageOrder] at hi
    simp [hall 5 (by omega), hall 6 (by omega), stageOrder]

/-- C3, at the failing input: the configuration file sets `DoCopy: false`, the
cull flag is on and every invoked stage succeeds; `buildFastSite` returns `nil`
after `saveManifest` and never applies `deleteNonWhitelist`. -/
theorem cull_without_copy_skips_collector :
    (buildFastSite (stubStages noCopyDoc staleEntry oneEntry [] none) "/site" true ()).err = none ∧
    (trace (stubStages noCopyDoc staleEntry oneEntry [] none) "/site" true ()).map Call.err =
      [none, none, none, none, none, none] ∧
    (trace (stubStages noCopyDoc staleEntry oneEntry [] none) "/site" true ()).map Call.name =
      ["readFileBytes", "discoverImages", "readManifest", "os.MkdirAll", "buildNewManifest",
        "saveManifest"] :=
  ⟨by rfl, by rfl, by rfl⟩

/-- C4, refuted as stated: in the example world, run without the cull flag,
`deleteNonWhitelist` is applied all the same, as the eighth call, with a
configuration whose `doCulling` is off. -/
theorem collector_called_without_cull_counterexample :
    (trace (demoStages none) "/site" false ())[7]? =
      some (Call.deleteNonWhitelist () (demoConf false)
        ["/site/_fastsite/assets/images/a.jpg", "/site/_fastsite/assets/images/a-400.jpg"] none) ∧
    (demoConf false).doCulling = false ∧
    ¬ ∀ c ∈ trace (demoStages none) "/site" false (), c.name ≠ "deleteNonWhitelist" := by
  have h7 : (trace (demoStages none) "/site" false ())[7]? =
      some (Call.deleteNonWhitelist () (demoConf false)
        ["/site/_fastsite/assets/images/a.jpg", "/site/_fastsite/assets/images/a-400.jpg"] none) :=
    by rfl
  refine ⟨h7, rfl, ?_⟩
  intro h
  exact h _ (List.mem_iff_getElem?.2 ⟨7, h7⟩) rfl

/-- C4, amended: `buildFastSite` does not test the cull flag.  Every
application of `deleteNonWhitelist` it makes is to a configuration whose
`doCulling` is the flag of the run (so `false` when culling was not requested),
and the recorded result is what `S.deleteNonWhitelist` gives on it; and
whatever the flag, when `readConfig` returns a configuration with `DoCopy` on
and every stage applied succeeds, `deleteNonWhitelist` is applied. -/
theorem collector_receives_cull_flag {W : Type} (S : Stages W) (bp : String) (dc : Bool)
    (w0 : W) :
    (∀ w c wl e, Call.deleteNonWhitelist w c wl e ∈ trace S bp dc w0 →
      c.doCulling = dc ∧ (S.deleteNonWhitelist c wl w).1 = e) ∧
    (∀ conf0 w1, readConfig S bp w0 = ((conf0, none), w1) → conf0.DoCopy = true →
      (∀ c ∈ trace S bp dc w0, c.err = none) →
      ∃ w c wl, Call.deleteNonWhitelist w c wl none ∈ trace S bp dc w0 ∧ c.doCulling = dc ∧
        buildFastSite S bp dc w0 = ⟨none, (S.deleteNonWhitelist c wl w).2⟩) := by
  have h := run_shape S bp dc w0
  generalize buildFastSite S bp dc w0 = r at h ⊢
  generalize trace S bp dc w0 = t at h ⊢
  constructor
  · intro w c wl e hD
    cases h <;> simp [logToSave, logToRead, readCall] at hD
    obtain ⟨rfl, rfl, rfl, rfl⟩ := hD
    exact ⟨rfl, rfl⟩
  · intro conf0 w1 h1 hcopy hall
    cases h
    case readConfigFails conf1 e w1' h1' =>
      rw [h1] at h1'
      simp at h1'
    case discoverFails => simp [logToSave, logToRead, readCall, Call.err, errOf] at hall
    case readManifestFails => simp [logToSave, logToRead, readCall, Call.err, errOf] at hall
    case mkdirFails => simp [logToSave, logToRead, readCall, Call.err, errOf] at hall
    case buildFails => simp [logToSave, logToRead, readCall, Call.err, errOf] at hall
    case saveFails => simp [logToSave, logToRead, readCall, Call.err, errOf] at hall
    case noCopy conf1 w1' found w2 old w3 w4 nm pts w5 w6 hs hno =>
      have h1' := hs.1.1
      rw [h1] at h1'
      simp only [Prod.mk.injEq, and_true] at h1'
      rw [h1'.1, hno] at hcopy
      cases hcopy
    case transformFails => simp [logToSave, logToRead, readCall, Call.err, errOf] at hall
    case collected conf1 w1' found w2 old w3 w4 nm pts w5 w6 kept w7 hs hyes h7 =>
      have hnone : (S.deleteNonWhitelist (runConf conf1 bp dc)
          (whitelistAll (runConf conf1 bp dc).ImageFolderPath kept nm) w7).1 = none := by
        simpa [Call.err] using hall _
          (List.mem_append_right _ (List.mem_cons_of_mem _ (List.mem_singleton.2 rfl)))
      refine ⟨w7, runConf conf1 bp dc,
        whitelistAll (runConf conf1 bp dc).ImageFolderPath kept nm, ?_, rfl, ?_⟩
      · rw [← hnone]
        exact List.mem_append_right _ (List.mem_cons_of_mem _ (List.mem_singleton.2 rfl))
      · rw [hnone]

/-- C4 amended, at a concrete run: without the cull flag the configuration
that `deleteNonWhitelist` is applied to in the example world has
`doCulling = false`. -/
theorem collector_receives_cull_flag_witness :
    Call.deleteNonWhitelist () (demoConf false)
        ["/site/_fastsite/assets/images/a.jpg", "/site/_fastsite/assets/images/a-400.jpg"] none ∈
      trace (demoStages none) "/site" false () ∧
    (demoConf false).doCulling = false :=
  ⟨List.mem_iff_getElem?.2 ⟨7, by rfl⟩,
    ((collector_receives_cull_flag (demoStages none) "/site" false ()).1 () (demoConf false)
      ["/site/_fastsite/assets/images/a.jpg", "/site/_fastsite/assets/images/a-400.jpg"] none
      (List.mem_iff_getElem?.2 ⟨7, by rfl⟩)).1⟩

/-- C5: a failing `readConfig`, and a failing `readManifest`, make
`buildFastSite` return that error before any mutation.  When `readConfig`
fails the run ends in the world `readConfig` left and the only stage applied is
its `readFileBytes`; when `readConfig` and `discoverImages` succeed and
`readManifest` fails the run ends in the world `readManifest` left and the only
stages applied are those three.  In neither case is a mutating stage
(`os.MkdirAll`, `saveManifest`, `transferAndTransformAll`,
`deleteNonWhitelist`) applied. -/
theorem config_error_aborts_before_mutation {W : Type} (S : Stages W) (bp : String)
    (dc : Bool) (w0 : W) :
    (∀ conf0 e w1, readConfig S bp w0 = ((conf0, some e), w1) →
      buildFastSite S bp dc w0 = ⟨some e, w1⟩ ∧
      trace S bp dc w0 = [readCall S bp w0] ∧
      ∀ c ∈ trace S bp dc w0, c.mutating = false) ∧
    (∀ conf0 w1 found w2 e w3, readConfig S bp w0 = ((conf0, none), w1) →
      S.discoverImages (runConf conf0 bp dc) (pathJoin [bp, conf0.InputFolder]) w1 =
        (.ok found, w2) →
      S.readManifest (manifestPathOf (runConf conf0 bp dc)) w2 = (.error e, w3) →
      buildFastSite S bp dc w0 = ⟨some e, w3⟩ ∧
      trace S bp dc w0 =
        [readCall S bp w0,
         .discoverImages w1 (runConf conf0 bp dc) (pathJoin [bp, conf0.InputFolder]) (.ok found),
         .readManifest w2 (manifestPathOf (runConf conf0 bp dc)) (.error e)] ∧
      ∀ c ∈ trace S bp dc w0, c.mutating = false) := by
  have h := run_shape S bp dc w0
  generalize buildFastSite S bp dc w0 = r at h ⊢
  generalize trace S bp dc w0 = t at h ⊢
  constructor
  · intro conf0 e w1 h1
    cases h <;> simp_all [ReadOk, SaveOk, readCall, Call.mutating]
  · intro conf0 w1 found w2 e w3 h1 h2 h3
    cases h <;> simp_all [ReadOk, SaveOk, readCall, Call.mutating]

/-- C5 at concrete runs: in the example world a failing `readConfig`, and a
failing `readManifest`, make `buildFastSite` return the error with no mutating
stage applied. -/
theorem config_error_aborts_before_mutation_witness :
    (buildFastSite (demoStages (some "readConfig")) "/site" true () = ⟨some "boom", ()⟩ ∧
      trace (demoStages (some "readConfig")) "/site" true () =
        [readCall (demoStages (some "readConfig")) "/site" ()] ∧
      ∀ c ∈ trace (demoStages (some "readConfig")) "/site" true (), c.mutating = false) ∧
    (buildFastSite (demoStages (some "readManifest")) "/site" true () = ⟨some "boom", ()⟩ ∧
      trace (demoStages (some "readManifest")) "/site" true () =
        [readCall (demoStages (some "readManifest")) "/site" (),
         .discoverImages () (runConf defaultConfig "/site" true)
           (pathJoin ["/site", defaultConfig.InputFolder]) (.ok ["a.jpg"]),
         .readManifest () (manifestPathOf (runConf defaultConfig "/site" true))
           (.error "boom")] ∧
      ∀ c ∈ trace (demoStages (some "readManifest")) "/site" true (), c.mutating = false) :=
  ⟨(config_error_aborts_before_mutation (demoStages (some "readConfig")) "/site" true ()).1
      defaultConfig "boom" () (by rfl),
    (config_error_aborts_before_mutation (demoStages (some "readManifest")) "/site" true ()).2
      defaultConfig () ["a.jpg"] () "boom" () (by rfl) (by rfl) (by rfl)⟩

/-- C6: every fatal error propagates.  The recorded calls are applications of
the stages of `S`, with the results `S` gave.  If `readConfig` fails,
`buildFastSite` returns its error and applies no stage after the
`readFileBytes` of `readConfig`.  A stage application that fails is the last
one made, all the ones before it succeeded, and `buildFastSite` returns exactly
its error, in the world it left.  And `buildFastSite` returns `nil` only if
`readConfig` and every stage applied succeeded. -/
theorem first_failure_is_returned {W : Type} (S : Stages W) (bp : String) (dc : Bool)
    (w0 : W) :
    (∀ c ∈ trace S bp dc w0, c.real S) ∧
    (∀ conf0 e w1, readConfig S bp w0 = ((conf0, some e), w1) →
      buildFastSite S bp dc w0 = ⟨some e, w1⟩ ∧ trace S bp dc w0 = [readCall S bp w0]) ∧
    (∀ pre c post e, trace S bp dc w0 = pre ++ c :: post → c.err = some e →
      post = [] ∧ (∀ c' ∈ pre, c'.err = none) ∧
        buildFastSite S bp dc w0 = ⟨some e, c.post S⟩) ∧
    ((buildFastSite S bp dc w0).err = none →
      (readConfig S bp w0).1.2 = none ∧ ∀ c ∈ trace S bp dc w0, c.err = none) := by
  refine ⟨trace_real S bp dc w0, ?_, ?_, ?_⟩
  · intro conf0 e w1 h1
    have h := run_shape S bp dc w0
    generalize buildFastSite S bp dc w0 = r at h ⊢
    generalize trace S bp dc w0 = t at h ⊢
    cases h <;> simp_all [ReadOk, SaveOk]
  · obtain ⟨pre, last, hlog, hpre, herr, -⟩ := trace_last S bp dc w0
    have hworld := (trace_threaded S bp dc w0).2.2
    intro pre' c post e hsplit hc
    rw [hlog] at hsplit
    rcases List.eq_nil_or_concat post with hnil | ⟨q, x, hq⟩
    · subst hnil
      have h2 := List.append_inj' hsplit rfl
      obtain ⟨h2a, h2b⟩ := h2
      simp only [List.cons.injEq, and_true] at h2b
      subst h2a h2b
      rw [hlog] at hworld
      have hw : Call.post S last = (buildFastSite S bp dc w0).world := by simpa using hworld
      refine ⟨rfl, hpre, ?_⟩
      have he := herr e hc
      cases hrun : buildFastSite S bp dc w0 with
      | mk err world =>
        rw [hrun] at he hw
        simp only at he hw
        rw [he, hw]
    · subst hq
      rw [List.concat_eq_append, ← List.cons_append, ← List.append_assoc] at hsplit
      have h1 := (List.append_inj' hsplit rfl).1
      have hmem : c ∈ pre := by rw [h1]; simp
      rw [hpre c hmem] at hc
      cases hc
  · obtain ⟨pre, last, hlog, hpre, -, hnil⟩ := trace_last S bp dc w0
    intro h0
    obtain ⟨hl, hrc⟩ := hnil h0
    refine ⟨hrc, ?_⟩
    rw [hlog]
    intro c hc
    rcases List.mem_append.1 hc with hc | hc
    · exact hpre c hc
    · rw [List.mem_singleton.1 hc]; exact hl

/-- C6 at a concrete run: in the example world with a failing `saveManifest`,
the sixth stage application is the last, and its error is what
`buildFastSite` returns. -/
theorem first_failure_is_returned_witness :
    (trace (demoStages (some "saveManifest")) "/site" true ()).map Call.name =
      ["readFileBytes", "discoverImages", "readManifest", "os.MkdirAll", "buildNewManifest",
        "saveManifest"] ∧
    (trace (demoStages (some "saveManifest")) "/site" true ()).map Call.err =
      [none, none, none, none, none, some "boom"] ∧
    ([] : List (Call Unit)) = [] ∧
    (∀ c' ∈ (trace (demoStages (some "saveManifest")) "/site" true ()).take 5, c'.err = none) ∧
    buildFastSite (demoStages (some "saveManifest")) "/site" true () = ⟨some "boom", ()⟩ :=
  ⟨by rfl, by rfl,
    (first_failure_is_returned (demoStages (some "saveManifest")) "/site" true ()).2.2.1
      ((trace (demoStages (some "saveManifest")) "/site" true ()).take 5)
      (Call.saveManifest () (manifestPathOf (demoConf true)) oneEntry (some "boom")) [] "boom"
      (by rfl) rfl⟩

/-- C7: the path `readManifest` is applied to and the path `saveManifest` is
applied to are the same: `path.Join(basePath, conf.ManifestFile)` when the
`ManifestFile` of the configuration that `readConfig` returned is not blank,
and the blank string otherwise.  The recorded calls are applications of the
stages of `S`, with the results `S` gave. -/
theorem manifest_path_same {W : Type} (S : Stages W) (bp : String) (dc : Bool) (w0 : W)
    (conf0 : config) (err0 : Option GoError) (w1 : W)
    (h1 : readConfig S bp w0 = ((conf0, err0), w1)) :
    (∀ w p r, Call.readManifest w p r ∈ trace S bp dc w0 →
      (p = if conf0.ManifestFile = "" then "" else pathJoin [bp, conf0.ManifestFile]) ∧
        (S.readManifest p w).1 = r) ∧
    (∀ w p m e, Call.saveManifest w p m e ∈ trace S bp dc w0 →
      (p = if conf0.ManifestFile = "" then "" else pathJoin [bp, conf0.ManifestFile]) ∧
        (S.saveManifest p m w).1 = e) := by
  have hreal := trace_real S bp dc w0
  have h := run_shape S bp dc w0
  generalize buildFastSite S bp dc w0 = r at h
  generalize trace S bp dc w0 = t at h hreal ⊢
  have key : ∀ c ∈ t, (∀ w p r, c = Call.readManifest w p r →
        p = if conf0.ManifestFile = "" then "" else pathJoin [bp, conf0.ManifestFile]) ∧
      (∀ w p m e, c = Call.saveManifest w p m e →
        p = if conf0.ManifestFile = "" then "" else pathJoin [bp, conf0.ManifestFile]) := by
    cases h <;> simp_all [ReadOk, SaveOk, logToSave, logToRead, readCall, manifestPathOf, runConf]
  constructor
  · intro w p r hm
    exact ⟨(key _ hm).1 w p r rfl, hreal _ hm⟩
  · intro w p m e hm
    exact ⟨(key _ hm).2 w p m e rfl, hreal _ hm⟩

/-- C7 at a concrete run: in the example world, run on `/site` with the
`ManifestFile` of the defaults, `readManifest` and `saveManifest` are both
applied, and both to `/site/enfasten_manifest.yml`. -/
theorem manifest_path_same_witness :
    Call.readManifest () "/site/enfasten_manifest.yml" (.ok staleEntry) ∈
      trace (demoStages none) "/site" true () ∧
    Call.saveManifest () "/site/enfasten_manifest.yml" oneEntry none ∈
      trace (demoStages none) "/site" true () ∧
    ("/site/enfasten_manifest.yml" =
      if defaultConfig.ManifestFile = "" then ""
      else pathJoin ["/site", defaultConfig.ManifestFile]) ∧
    ("/site/enfasten_manifest.yml" =
      if defaultConfig.ManifestFile = "" then ""
      else pathJoin ["/site", defaultConfig.ManifestFile]) :=
  ⟨List.mem_iff_getElem?.2 ⟨2, by rfl⟩, List.mem_iff_getElem?.2 ⟨5, by rfl⟩,
    ((manifest_path_same (demoStages none) "/site" true () defaultConfig none () (by rfl)).1 ()
      "/site/enfasten_manifest.yml" (.ok staleEntry) (List.mem_iff_getElem?.2 ⟨2, by rfl⟩)).1,
    ((manifest_path_same (demoStages none) "/site" true () defaultConfig none () (by rfl)).2 ()
      "/site/enfasten_manifest.yml" oneEntry none (List.mem_iff_getElem?.2 ⟨5, by rfl⟩)).1⟩

/-- C8: when the configuration file is readable and parses to a document that
sets no field, `readConfig` returns without error the configuration with
`InputFolder = "_site"`, `OutputFolder = "_fastsite"`,
`ImageFolder = "assets/images"`, `ManifestFile = "enfasten_manifest.yml"`,
blank `SizesAttr`, no `OptimCommand`, `ScaleThreshold = 0.9`,
`JpgScaleThreshold = 0.7`, `JpgQuality = 90`, `DoCopy` on, no widths and an
empty blacklist; and whatever the document sets, each field it does not set
keeps that value in the configuration `readConfig` returns. -/
theorem readConfig_defaults {W : Type} (S : Stages W) (bp : String) (w w1 : W)
    (bytes : List UInt8) (doc : YamlDoc) (err : Option GoError)
    (hread : S.readFileBytes (pathJoin [bp, "enfasten.yml"]) w = (.ok bytes, w1))
    (hparse : S.yamlParse bytes = (doc, err)) :
    (doc = YamlDoc.empty → err = none →
      readConfig S bp w =
        (({ InputFolder := "_site"
            OutputFolder := "_fastsite"
            ImageFolder := "assets/images"
            ManifestFile := "enfasten_manifest.yml"
            SizesAttr := ""
            OptimCommand := []
            ScaleThreshold := 0.9
            JpgScaleThreshold := 0.7
            JpgQuality := 90
            DoCopy := true
            Widths := []
            Blacklist := []
            basePath := ""
            doCulling := false }, none), w1)) ∧
    (doc.InputFolder = none → (readConfig S bp w).1.1.InputFolder = "_site") ∧
    (doc.OutputFolder = none → (readConfig S bp w).1.1.OutputFolder = "_fastsite") ∧
    (doc.ImageFolder = none → (readConfig S bp w).1.1.ImageFolder = "assets/images") ∧
    (doc.ManifestFile = none →
      (readConfig S bp w).1.1.ManifestFile = "enfasten_manifest.yml") ∧
    (doc.SizesAttr = none → (readConfig S bp w).1.1.SizesAttr = "") ∧
    (doc.OptimCommand = none → (readConfig S bp w).1.1.OptimCommand = []) ∧
    (doc.ScaleThreshold = none → (readConfig S bp w).1.1.ScaleThreshold = 0.9) ∧
    (doc.JpgScaleThreshold = none → (readConfig S bp w).1.1.JpgScaleThreshold = 0.7) ∧
    (doc.JpgQuality = none → (readConfig S bp w).1.1.JpgQuality = 90) ∧
    (doc.DoCopy = none → (readConfig S bp w).1.1.DoCopy = true) ∧
    (doc.Widths = none → (readConfig S bp w).1.1.Widths = []) ∧
    (doc.Blacklist = none → (readConfig S bp w).1.1.Blacklist = []) := by
  have hrc : readConfig S bp w = ((doc.applyTo defaultConfig, err), w1) := by
    simp [readConfig, hread, hparse]
  rw [hrc]
  refine ⟨?_, ?_, ?_, ?_, ?_, ?_, ?_, ?_, ?_, ?_, ?_, ?_, ?_⟩
  · rintro rfl rfl
    rfl
  all_goals
    intro h
    simp [YamlDoc.applyTo, h, defaultConfig]

/-- C8 at a concrete input: in the example world, whose configuration file sets
nothing, `readConfig` returns the defaults and no error. -/
theorem readConfig_defaults_witness :
    readConfig (demoStages none) "/site" () =
      (({ InputFolder := "_site"
          OutputFolder := "_fastsite"
          ImageFolder := "assets/images"
          ManifestFile := "enfasten_manifest.yml"
          SizesAttr := ""
          OptimCommand := []
          ScaleThreshold := 0.9
          JpgScaleThreshold := 0.7
          JpgQuality := 90
          DoCopy := true
          Widths := []
          Blacklist := []
          basePath := ""
          doCulling := false }, none), ()) :=
  (readConfig_defaults (demoStages none) "/site" () () [] YamlDoc.empty none rfl rfl).1 rfl rfl

/-- C9, refuted as stated: with the base path `.`, which is the default of the
command line, and the configuration of the defaults, the whitelist entry of the
generated file `a-400.jpg` is `_fastsite/assets/images/a-400.jpg`, which is not
absolute; it is what `buildFastSite` hands to `deleteNonWhitelist`. -/
theorem default_basepath_whitelist_relative_counterexample :
    pathJoin [(runConf defaultConfig "." true).ImageFolderPath, "a-400.jpg"] =
      "_fastsite/assets/images/a-400.jpg" ∧
    pathIsAbs (pathJoin [(runConf defaultConfig "." true).ImageFolderPath, "a-400.jpg"]) = false ∧
    (trace (stubStages YamlDoc.empty [] oneEntry [] none) "." true ())[7]? =
      some (Call.deleteNonWhitelist () (runConf defaultConfig "." true)
        ["_fastsite/assets/images/a-400.jpg"] none) :=
  ⟨by decide, by decide, by rfl⟩

/-- C9, amended: when the base path is absolute (begins with `/`), for every
configuration and every generated file `f`,
`path.Join(conf.ImageFolderPath(), f.FileName)` is absolute. -/
theorem whitelist_entry_absolute (conf0 : config) (bp : String) (dc : Bool) (f : GeneratedFile)
    (h : pathIsAbs bp = true) :
    pathIsAbs (pathJoin [(runConf conf0 bp dc).ImageFolderPath, f.FileName]) = true := by
  apply pathJoin_isAbs
  unfold config.ImageFolderPath
  apply pathJoin_isAbs
  exact h

/-- C9 amended, at a concrete input: on the base path `/site` the whitelist
entry of `a-400.jpg` is absolute. -/
theorem whitelist_entry_absolute_witness :
    pathIsAbs "/site" = true ∧
    pathIsAbs (pathJoin [(runConf defaultConfig "/site" true).ImageFolderPath,
      (GeneratedFile.mk "a-400.jpg" 400 "jpg").FileName]) = true :=
  ⟨by decide, whitelist_entry_absolute defaultConfig "/site" true ⟨"a-400.jpg", 400, "jpg"⟩
    (by decide)⟩

end Enfasten
